import Mathlib

/-!
# Role and permission management of the team-management dashboard

A shallow embedding of the permission and role-assignment logic of the
admin pages (`src/pages/admin/Roles.jsx`, `Users.jsx`, `Team.jsx`), of the
login pages and the logout of the admin layout (`Login.jsx`, `Adminlogin.jsx`,
`Adminlayout.jsx`), together with the authorization engine that the
specification describes.

Conventions of the embedding:

* a JavaScript field that may be absent, `undefined` or `null` is an
  `Option`; `!x` on such a boolean field is `x != some true`, and
  `x !== false` is `x != some false`;
* a stored instant (an ISO-8601 string in the JSON documents) is the number
  of milliseconds since the epoch that it denotes;
* an `async` handler is the value it hands to the next stage, wrapped in
  `Handled` to record an early `return` or an exception; where a claim is
  about the state a handler leaves, the handler is a function of the state
  before and of how its awaited request ended;
* functions of the same name in different pages live in a namespace named
  after the page (`Users`, `Roles`, `Team`, `AuditLogs`, `Dashboard`, `Login`,
  `AdminLogin`, `AdminLayout`).
-/

namespace TeamManagement

/-! ## Data model -/

/-- An instant: milliseconds since 1970-01-01T00:00:00Z. -/
abbrev Instant := Int

/-- One entry of a role's `permissions` array:
`{key, scope, isActive, revoked, validFrom, validTill}`. -/
structure Permission where
  key : String
  scope : Option String := none
  isActive : Option Bool := none
  revoked : Option Bool := none
  validFrom : Option Instant := none
  validTill : Option Instant := none
deriving DecidableEq, Repr

/-- A role document as the roles endpoint returns it. `permissions` is
`none` when the document carries no array (the code reads it through
`role.permissions?.find`). -/
structure Role where
  _id : String
  name : String := ""
  description : String := ""
  isActive : Option Bool := none
  validFrom : Option Instant := none
  validTill : Option Instant := none
  permissions : Option (List Permission) := none
deriving DecidableEq, Repr

/-- What `getPermissionStatus` returns. -/
structure PermissionStatus where
  active : Bool
  scope : String
  validFrom : Option Instant
  validTill : Option Instant
deriving DecidableEq, Repr

/-- How a handler ended before or at its request. -/
inductive Handled (α : Type) where
  /-- The guard at the top returned; nothing was computed. -/
  | ignored : Handled α
  /-- An error message with this text was set and no request was made. -/
  | rejected (text : String) : Handled α
  /-- An exception escaped the handler before any request was made. -/
  | threw : Handled α
  /-- The request was made with this value. -/
  | submitted (a : α) : Handled α
deriving DecidableEq, Repr

/-- The two fields `handlePermissionDateChange` is called with
(the `From:` and `Till:` date inputs of a permission row). -/
inductive DateField where
  | validFrom
  | validTill
deriving DecidableEq, Repr

/-! ## Dates -/

/-- Gregorian leap year. -/
def isLeapYear (y : Nat) : Bool :=
  (y % 4 == 0 && y % 100 != 0) || y % 400 == 0

/-- Number of days of month `m` (1..12) of year `y`; 0 for any other `m`. -/
def daysInMonth (y m : Nat) : Nat :=
  match m with
  | 1 => 31
  | 2 => if isLeapYear y then 29 else 28
  | 3 => 31
  | 4 => 30
  | 5 => 31
  | 6 => 30
  | 7 => 31
  | 8 => 31
  | 9 => 30
  | 10 => 31
  | 11 => 30
  | 12 => 31
  | _ => 0

/-- Days from 1970-01-01 to the civil date `y-m-d` (proleptic Gregorian). -/
def daysFromCivil (y m d : Nat) : Int :=
  let y' : Int := if m ≤ 2 then (y : Int) - 1 else (y : Int)
  let era : Int := y' / 400
  let yoe : Int := y' - era * 400
  let mp : Int := if m ≤ 2 then (m : Int) + 9 else (m : Int) - 3
  let doy : Int := (153 * mp + 2) / 5 + (d : Int) - 1
  let doe : Int := yoe * 365 + yoe / 4 - yoe / 100 + doy
  era * 146097 + doe - 719468

/-- Value of a decimal digit character. -/
def digitValue (c : Char) : Option Nat :=
  if c.isDigit then some (c.toNat - 48) else none

/-- Time value of `new Date(value)` for the value of an `<input type="date">`:
a calendar date `YYYY-MM-DD` is UTC midnight of that day; any other string
is an invalid date (`none`), on which `toISOString()` throws a `RangeError`. -/
def newDate (value : String) : Option Instant :=
  match value.toList with
  | [y1, y2, y3, y4, '-', m1, m2, '-', d1, d2] => do
    let a ← digitValue y1
    let b ← digitValue y2
    let c ← digitValue y3
    let e ← digitValue y4
    let f ← digitValue m1
    let g ← digitValue m2
    let h ← digitValue d1
    let i ← digitValue d2
    let y := a * 1000 + b * 100 + c * 10 + e
    let m := f * 10 + g
    let d := h * 10 + i
    if 1 ≤ d ∧ d ≤ daysInMonth y m then
      some (daysFromCivil y m d * 86400000)
    else none
  | _ => none

/-- Civil date `(year, month, day)` of the day that lies `z` days after
1970-01-01 (proleptic Gregorian, inverse of `daysFromCivil`). -/
def civilFromDays (z : Int) : Int × Nat × Nat :=
  let z' : Int := z + 719468
  let era : Int := z' / 146097
  let doe : Int := z' - era * 146097
  let yoe : Int := (doe - doe / 1460 + doe / 36524 - doe / 146096) / 365
  let doy : Int := doe - (365 * yoe + yoe / 4 - yoe / 100)
  let mp : Int := (5 * doy + 2) / 153
  let d : Int := doy - (153 * mp + 2) / 5 + 1
  let m : Int := if mp < 10 then mp + 3 else mp - 9
  let y : Int := yoe + era * 400 + (if m ≤ 2 then 1 else 0)
  (y, m.toNat, d.toNat)

/-- Decimal digits of `n`, padded with zeros on the left to `width`. -/
def padDigits (width n : Nat) : String :=
  let ds := Nat.repr n
  String.mk (List.replicate (width - ds.length) '0') ++ ds

/-- The year as `toISOString` writes it: four digits for 0..9999, else a
sign and six digits. -/
def isoYear (y : Int) : String :=
  if 0 ≤ y ∧ y ≤ 9999 then padDigits 4 y.toNat
  else if y < 0 then "-" ++ padDigits 6 (-y).toNat
  else "+" ++ padDigits 6 y.toNat

/-- Embedding of `formatDateForInput` (`Roles.jsx`, `Users.jsx`): the empty
string for a missing date, else the part of `toISOString()` before `T`. -/
def formatDateForInput (dateString : Option Instant) : String :=
  match dateString with
  | none => ""
  | some t =>
    let (y, m, d) := civilFromDays (t / 86400000)
    isoYear y ++ "-" ++ padDigits 2 m ++ "-" ++ padDigits 2 d

/-- The expression `value ? new Date(value).toISOString() : null`: `none`
when it throws, `some none` for `null`, `some (some t)` for an instant. -/
def dateOrNull (value : String) : Option (Option Instant) :=
  if value = "" then some none
  else match newDate value with
    | some t => some (some t)
    | none => none

/-! ## Roles page: permission status and the three permission handlers -/

/-- The predicate of `find` in `getPermissionStatus`:
`p.key === permKey && !p.revoked && p.isActive !== false`. -/
def isActiveEntry (permKey : String) (p : Permission) : Bool :=
  p.key == permKey && p.revoked != some true && p.isActive != some false

/-- The value of `perm.scope || 'global'`. -/
def scopeOrGlobal (scope : Option String) : String :=
  match scope with
  | some s => if s = "" then "global" else s
  | none => "global"

/-- Embedding of `getPermissionStatus` of `Roles.jsx`. -/
def getPermissionStatus (role : Role) (permKey : String) : PermissionStatus :=
  match (role.permissions.bind (fun ps => ps.find? (isActiveEntry permKey))) with
  | some perm =>
    { active := true, scope := scopeOrGlobal perm.scope,
      validFrom := perm.validFrom, validTill := perm.validTill }
  | none => { active := false, scope := "global", validFrom := none, validTill := none }

/-- Embedding of `handlePermissionToggle`: the role id and the list handed
to `updateRolePermissions`. -/
def handlePermissionToggle (selectedRole : Option Role) (permKey : String) :
    Handled (String × List Permission) :=
  match selectedRole with
  | none => .ignored
  | some role =>
    match role.permissions with
    | none => .threw
    | some ps =>
      if (getPermissionStatus role permKey).active then
        .submitted (role._id, ps.filter (fun p => p.key != permKey))
      else
        .submitted (role._id,
          ps ++ [{ key := permKey, scope := some "global", isActive := some true,
                   revoked := some false }])

/-- Embedding of `handleScopeChange`. -/
def handleScopeChange (selectedRole : Option Role) (permKey newScope : String) :
    Handled (String × List Permission) :=
  match selectedRole with
  | none => .ignored
  | some role =>
    match role.permissions with
    | none => .threw
    | some ps =>
      .submitted (role._id,
        ps.map (fun p => if p.key = permKey then { p with scope := some newScope } else p))

/-- The method `Array.prototype.map` with a callback that may throw: the
mapped array, or `none` as soon as one call throws. -/
def mapThrowing {α β : Type} (f : α → Option β) : List α → Option (List β)
  | [] => some []
  | a :: t =>
    match f a with
    | none => none
    | some b =>
      match mapThrowing f t with
      | none => none
      | some bs => some (b :: bs)

/-- The object `{ ...p, [field]: v }` for the two date fields. -/
def setDateField (p : Permission) (field : DateField) (v : Option Instant) : Permission :=
  match field with
  | .validFrom => { p with validFrom := v }
  | .validTill => { p with validTill := v }

/-- Embedding of `handlePermissionDateChange`. The date expression is
evaluated inside the `map` callback, for the entries of key `permKey` only,
so an invalid date throws only when such an entry exists. -/
def handlePermissionDateChange (selectedRole : Option Role) (permKey : String)
    (field : DateField) (value : String) : Handled (String × List Permission) :=
  match selectedRole with
  | none => .ignored
  | some role =>
    match role.permissions with
    | none => .threw
    | some ps =>
      match mapThrowing (fun p =>
          if p.key = permKey then (dateOrNull value).map (setDateField p field)
          else some p) ps with
      | some ps' => .submitted (role._id, ps')
      | none => .threw

/-! ## Roles page: saving a permissions list, creating a role -/

/-- The banner `message` state: `{ type, text }`. -/
structure Message where
  type : String
  text : String
deriving DecidableEq, Repr

/-- The state of the roles page that `updateRolePermissions` touches. -/
structure RolesPage where
  roles : List Role
  selectedRole : Option Role
  saving : Bool
  message : Message
deriving DecidableEq, Repr

/-- The state while the PATCH of `updateRolePermissions` is awaited
(after `setSaving(true)`). -/
def updateRolePermissionsPending (st : RolesPage) : RolesPage :=
  { st with saving := true }

/-- Embedding of `updateRolePermissions`: the state once the handler has
finished. `patchOk` tells whether the awaited PATCH fulfilled; when it
rejects, the `catch` branch runs. -/
def updateRolePermissions (st : RolesPage) (roleId : String)
    (permissions : List Permission) (patchOk : Bool) : RolesPage :=
  if patchOk then
    let updatedRoles := st.roles.map
      (fun r => if r._id = roleId then { r with permissions := some permissions } else r)
    { roles := updatedRoles
      selectedRole := updatedRoles.find? (fun r => r._id == roleId)
      saving := false
      message := { type := "success", text := "Permissions updated successfully" } }
  else
    { roles := st.roles
      selectedRole := st.selectedRole
      saving := false
      message := { type := "error", text := "Failed to update permissions" } }

/-- The states the page passes through during one `updateRolePermissions`
call: the pending state, then the final one. -/
def updateRolePermissionsTrace (st : RolesPage) (roleId : String)
    (permissions : List Permission) (patchOk : Bool) : List RolesPage :=
  [updateRolePermissionsPending st, updateRolePermissions st roleId permissions patchOk]

/-- White space and line terminators that `String.prototype.trim` strips. -/
def isJsWhitespace (c : Char) : Bool :=
  let n := c.toNat
  n == 0x09 || n == 0x0A || n == 0x0B || n == 0x0C || n == 0x0D || n == 0x20 ||
  n == 0xA0 || n == 0x1680 || (0x2000 ≤ n && n ≤ 0x200A) || n == 0x2028 ||
  n == 0x2029 || n == 0x202F || n == 0x205F || n == 0x3000 || n == 0xFEFF

/-- The test `!s.trim()`: the string is empty once trimmed. -/
def isBlank (s : String) : Bool :=
  s.toList.all isJsWhitespace

/-- The uppercase mapping of single characters that `toUpperCase` applies:
the case table of the platform (a character may map to several). The table
is not part of the repository and is a parameter of the embedding. -/
abbrev CaseTable := Char → List Char

/-- The case table on the ASCII letters, every other character kept: the
table used for the concrete inputs below, which are written in ASCII. -/
def asciiUpper : CaseTable :=
  fun c => [c.toUpper]

/-- The method `toUpperCase`: every character replaced by its uppercase
mapping. -/
def toUpperCase (upper : CaseTable) (s : String) : String :=
  String.mk (s.toList.flatMap upper)

/-- The `newRole` form state of the create-role modal. -/
structure NewRole where
  name : String := ""
  description : String := ""
  permissions : List Permission := []
  validFrom : String := ""
  validTill : String := ""
deriving DecidableEq, Repr

/-- The body that `handleCreateRole` posts. -/
structure RolePayload where
  name : String
  description : String
  permissions : List Permission
  validFrom : Instant
  validTill : Option Instant
deriving DecidableEq, Repr

/-- Embedding of `handleCreateRole` up to its POST. `now` is the instant
that `new Date()` reads. An invalid date throws inside the `try`, and the
`catch` then sets the message `Failed to create role`. -/
def handleCreateRole (upper : CaseTable) (newRole : NewRole) (now : Instant) :
    Handled RolePayload :=
  if isBlank newRole.name then .rejected "Role name is required"
  else
    let validFrom : Option Instant :=
      if newRole.validFrom = "" then some now else newDate newRole.validFrom
    match validFrom, dateOrNull newRole.validTill with
    | some vf, some vt =>
      .submitted
        { name := toUpperCase upper newRole.name
          description := newRole.description
          permissions := newRole.permissions
          validFrom := vf
          validTill := vt }
    | _, _ => .rejected "Failed to create role"

/-! ## Users and team pages: the role shown for a user -/

/-- The populated `role` of an entry of `user.roles`. -/
structure RoleRef where
  _id : Option String := none
  name : Option String := none
deriving DecidableEq, Repr

/-- One entry of `user.roles`: `{role, revoked, validFrom, validTill}`.
`role` is `none` when the reference did not resolve to a role document. -/
structure UserRole where
  role : Option RoleRef := none
  revoked : Option Bool := none
  validFrom : Option Instant := none
  validTill : Option Instant := none
deriving DecidableEq, Repr

/-- The `team` of a user document: a populated team or a bare id. -/
inductive TeamValue where
  | populated (_id : String) (name : String)
  | idOnly (id : String)
deriving DecidableEq, Repr

/-- A user document as the users endpoint returns it; `id` is the field
that `isSelfEdit` also compares. -/
structure User where
  _id : String
  name : Option String := none
  email : Option String := none
  isActive : Option Bool := none
  team : Option TeamValue := none
  roles : Option (List UserRole) := none
  id : Option String := none
deriving DecidableEq, Repr

/-- The expression `user.roles?.find(r => !r.revoked)` shared by
`getRoleName`, `openEditModal`, the users table and the team-members list. -/
def findUserRole (user : User) : Option UserRole :=
  user.roles.bind (fun rs => rs.find? (fun r => r.revoked != some true))

/-- The value of `s || fallback` for an optional string. -/
def orElseString (s : Option String) (fallback : String) : String :=
  match s with
  | some v => if v = "" then fallback else v
  | none => fallback

/-- Embedding of `getRoleName` of `Users.jsx`. -/
def getRoleName (user : User) : String :=
  orElseString (((findUserRole user).bind (fun r => r.role)).bind (fun r => r.name)) "No Role"

/-- The `roleName` of a member in the team-members list of `Team.jsx`:
`member.roles?.find(r => !r.revoked)?.role?.name`. -/
def roleName (member : User) : Option String :=
  ((findUserRole member).bind (fun r => r.role)).bind (fun r => r.name)

/-- Whether the team-members list renders the role badge: `roleName && ...`. -/
def showsRoleBadge (member : User) : Bool :=
  match roleName member with
  | some n => n != ""
  | none => false

/-- The `formData` state of the users page. -/
structure FormData where
  name : String := ""
  email : String := ""
  password : String := ""
  roleId : String := ""
  teamId : String := ""
  isActive : Bool := true
  roleValidFrom : String := ""
  roleValidTill : String := ""
deriving DecidableEq, Repr

/-- The value of `user.team?._id`. -/
def teamIdOf (team : Option TeamValue) : Option String :=
  match team with
  | some (.populated i _) => some i
  | _ => none

/-- Embedding of `openEditModal`: the form it fills in for `user`. -/
def openEditModal (user : User) : FormData :=
  let userRole := findUserRole user
  { name := orElseString user.name ""
    email := orElseString user.email ""
    password := ""
    roleId := orElseString ((userRole.bind (fun r => r.role)).bind (fun r => r._id)) ""
    teamId := orElseString (teamIdOf user.team) ""
    isActive := user.isActive.getD true
    roleValidFrom := formatDateForInput (userRole.bind (fun r => r.validFrom))
    roleValidTill := formatDateForInput (userRole.bind (fun r => r.validTill)) }

/-! ## The authorization engine of the specification

The dashboard holds no access-control check of its own: the engine below
follows sections 3 and 4 of the specification. -/

/-- Modelled from the spec: the validity primitive of section 4.1 (no source
function computes it). Effective iff `!revoked && active &&
(validFrom is unset || validFrom ≤ asOf) && (validTill is unset || asOf ≤ validTill)`. -/
def isEffective (revoked active : Bool) (validFrom validTill : Option Instant)
    (asOf : Instant) : Bool :=
  !revoked && active &&
  (match validFrom with
   | none => true
   | some f => decide (f ≤ asOf)) &&
  (match validTill with
   | none => true
   | some t => decide (asOf ≤ t))

/-- Modelled from the spec: the validity rule of section 4.1 read on an entry of a role's
`permissions` array: `revoked` is the truthiness of the field and the entry
is marked active unless `isActive` is `false`. -/
def permissionEffective (p : Permission) (asOf : Instant) : Bool :=
  isEffective (p.revoked == some true) (p.isActive != some false) p.validFrom p.validTill asOf

/-- Modelled from the spec: the validity rule of section 4.1 read on an entry of `user.roles`
(an assignment has no active flag: it counts as always active). -/
def userRoleEffective (r : UserRole) (asOf : Instant) : Bool :=
  isEffective (r.revoked == some true) true r.validFrom r.validTill asOf

/-- Modelled from the spec: the breadth of a grant (glossary, `Scope`). -/
inductive Scope where
  | global
  | team
  | self
deriving DecidableEq, Repr

/-- Modelled from the spec: the record `PermissionGrant` of section 3. -/
structure PermissionGrant where
  key : String
  scope : Scope
  active : Bool := true
  revoked : Bool := false
  validFrom : Option Instant := none
  validTill : Option Instant := none
deriving DecidableEq, Repr

/-- Modelled from the spec: the record `RoleRecord` of section 3. -/
structure RoleRecord where
  id : String
  name : String := ""
  description : String := ""
  isActive : Bool := true
  validFrom : Option Instant := none
  validTill : Option Instant := none
  grants : List PermissionGrant := []
deriving DecidableEq, Repr

/-- Modelled from the spec: the record `RoleAssignment` of section 3; `role` is the id of the
referenced role. -/
structure RoleAssignment where
  role : String
  revoked : Bool := false
  validFrom : Option Instant := none
  validTill : Option Instant := none
deriving DecidableEq, Repr

/-- Modelled from the spec: the record `UserRecord` of section 3; `team` is the id of the team. -/
structure UserRecord where
  id : String
  name : String := ""
  email : String := ""
  isActive : Bool := true
  team : Option String := none
  assignments : List RoleAssignment := []
deriving DecidableEq, Repr

/-- Modelled from the spec: the resource context `{teamId?, ownerId?}`. -/
structure ResourceContext where
  teamId : Option String := none
  ownerId : Option String := none
deriving DecidableEq, Repr

/-- Modelled from the spec: why access is denied. -/
inductive DenyReason where
  | NoEffectiveGrant
  | ScopeMismatch
deriving DecidableEq, Repr

/-- Modelled from the spec: the engine's output `Decision`. -/
inductive Decision where
  | Allow (matchedScope : Scope)
  | Deny (reason : DenyReason)
deriving DecidableEq, Repr

/-- Modelled from the spec: the only failure of the engine, a role reference
that does not resolve. -/
inductive EngineError where
  | DataIntegrityError (roleId : String)
deriving DecidableEq, Repr

/-- Modelled from the spec: step 1 of `Evaluate` (section 4.2), the
assignments of the user that are effective at `asOf`. -/
def effectiveAssignments (user : UserRecord) (asOf : Instant) : List RoleAssignment :=
  user.assignments.filter (fun a => isEffective a.revoked true a.validFrom a.validTill asOf)

/-- Modelled from the spec: steps 2 and 3 of `Evaluate` for one effective
assignment: resolve the role, fail when it does not resolve, contribute
nothing when the role is inactive or out of its own bounds, else give the
scopes of its effective grants of the key. -/
def assignmentScopes (roleLookup : String → Option RoleRecord) (permissionKey : String)
    (asOf : Instant) (a : RoleAssignment) : Except EngineError (List Scope) :=
  match roleLookup a.role with
  | none => .error (.DataIntegrityError a.role)
  | some role =>
    if isEffective false role.isActive role.validFrom role.validTill asOf then
      .ok ((role.grants.filter (fun g =>
        g.key == permissionKey &&
        isEffective g.revoked g.active g.validFrom g.validTill asOf)).map (fun g => g.scope))
    else .ok []

/-- Modelled from the spec: steps 1 to 4 of `Evaluate`, the scopes `S` of
all matching grants across all contributing roles. -/
def collectScopes (roleLookup : String → Option RoleRecord) (permissionKey : String)
    (asOf : Instant) : List RoleAssignment → Except EngineError (List Scope)
  | [] => .ok []
  | a :: rest =>
    match assignmentScopes roleLookup permissionKey asOf a with
    | .error e => .error e
    | .ok ss =>
      match collectScopes roleLookup permissionKey asOf rest with
      | .error e => .error e
      | .ok ts => .ok (ss ++ ts)

/-- Modelled from the spec: steps 5 and 6 of `Evaluate`, scope precedence
`global > team > self` on the collected scopes. -/
def resolveScopes (user : UserRecord) (resourceContext : ResourceContext)
    (S : List Scope) : Decision :=
  if S = [] then .Deny .NoEffectiveGrant
  else if Scope.global ∈ S then .Allow .global
  else if Scope.team ∈ S ∧ resourceContext.teamId.isSome ∧
      resourceContext.teamId = user.team then .Allow .team
  else if Scope.self ∈ S ∧ resourceContext.ownerId = some user.id then .Allow .self
  else .Deny .ScopeMismatch

/-- Modelled from the spec: the operation `Evaluate` of section 4.2 (the
repository holds no implementation of it). -/
def Evaluate (user : UserRecord) (roleLookup : String → Option RoleRecord)
    (permissionKey : String) (resourceContext : ResourceContext) (asOf : Instant) :
    Except EngineError Decision :=
  match collectScopes roleLookup permissionKey asOf (effectiveAssignments user asOf) with
  | .error e => .error e
  | .ok S => .ok (resolveScopes user resourceContext S)

/-! ## Roles page: the permission catalog and the create-role selection -/

/-- One entry of `ALL_PERMISSIONS`: `{ key, label, category }`. -/
structure CatalogEntry where
  key : String
  label : String
  category : String
deriving DecidableEq, Repr

/-- The constant `ALL_PERMISSIONS` of `Roles.jsx`. -/
def ALL_PERMISSIONS : List CatalogEntry :=
  [ { key := "user.create", label := "Create Users", category := "User Management" },
    { key := "user.read", label := "View Users", category := "User Management" },
    { key := "user.update", label := "Update Users", category := "User Management" },
    { key := "user.delete", label := "Delete Users", category := "User Management" },
    { key := "role.create", label := "Create Roles", category := "Role Management" },
    { key := "role.read", label := "View Roles", category := "Role Management" },
    { key := "role.update", label := "Update Roles", category := "Role Management" },
    { key := "role.delete", label := "Delete Roles", category := "Role Management" },
    { key := "team.create", label := "Create Teams", category := "Team Management" },
    { key := "team.read", label := "View Teams", category := "Team Management" },
    { key := "team.update", label := "Update Teams", category := "Team Management" },
    { key := "team.delete", label := "Delete Teams", category := "Team Management" },
    { key := "audit.read", label := "View Audit Logs", category := "Audit" } ]

/-- The callback of the `reduce` in `groupedPermissions`. The accumulator
object is the list of its `(category, entries)` properties in insertion
order: a category not yet present is added at the end with an empty array,
then the entry is pushed onto the array of its category. -/
def groupStep (acc : List (String × List CatalogEntry)) (perm : CatalogEntry) :
    List (String × List CatalogEntry) :=
  if acc.any (fun g => g.1 == perm.category) then
    acc.map (fun g => if g.1 == perm.category then (g.1, g.2 ++ [perm]) else g)
  else acc ++ [(perm.category, [perm])]

/-- Embedding of `groupedPermissions`: `ALL_PERMISSIONS.reduce(..., {})`. -/
def groupedPermissions : List (String × List CatalogEntry) :=
  ALL_PERMISSIONS.foldl groupStep []

/-- Embedding of `toggleNewRolePermission`: the `newRole` it sets. -/
def toggleNewRolePermission (newRole : NewRole) (permKey : String) : NewRole :=
  match newRole.permissions.find? (fun p => p.key == permKey) with
  | some _ =>
    { newRole with permissions := newRole.permissions.filter (fun p => p.key != permKey) }
  | none =>
    { newRole with
      permissions := newRole.permissions ++
        [{ key := permKey, scope := some "global", isActive := some true }] }

/-- The initial `newRole` state: empty texts and no permission selected. -/
def emptyNewRole : NewRole :=
  { name := "", description := "", permissions := [], validFrom := "", validTill := "" }

/-! ## Requests that the server may reject: creating a role, deleting a team -/

/-- How an awaited request ended: fulfilled, or rejected with the value of
`error.response?.data?.message`. -/
inductive Response where
  | fulfilled
  | failed (message : Option String)
deriving DecidableEq, Repr

/-- Two names that differ only in letter case: of the same length, with
characters of the same uppercase mapping at every position. -/
def SameUpToCase (upper : CaseTable) (a b : String) : Prop :=
  List.Forall₂ (fun c d => upper c = upper d) a.toList b.toList

/-- The state of the roles page that `handleCreateRole` reads and sets. -/
structure CreateRolePage where
  roles : List Role
  newRole : NewRole
  showCreateModal : Bool
  saving : Bool
  loading : Bool
  message : Message
deriving DecidableEq, Repr

/-- Embedding of `handleCreateRole` as a whole: the state once the handler
has finished, `post` being how the awaited POST ended. After a fulfilled POST
the handler calls `fetchRoles`, which sets `loading` and reloads `roles`
later, from the server. -/
def handleCreateRoleRun (upper : CaseTable) (st : CreateRolePage) (now : Instant)
    (post : Response) : CreateRolePage :=
  if isBlank st.newRole.name then
    { st with message := { type := "error", text := "Role name is required" } }
  else
    match handleCreateRole upper st.newRole now, post with
    | .submitted _, .fulfilled =>
      { st with
        message := { type := "success", text := "Role created successfully" }
        showCreateModal := false
        newRole := emptyNewRole
        loading := true
        saving := false }
    | .submitted _, .failed m =>
      { st with
        message := { type := "error", text := orElseString m "Failed to create role" }
        saving := false }
    | _, _ =>
      { st with
        message := { type := "error", text := "Failed to create role" }
        saving := false }

/-- A team document: `{ _id, name }`. -/
structure TeamDoc where
  _id : String
  name : Option String := none
deriving DecidableEq, Repr

/-- The state of the team page that `handleDelete` reads and sets. -/
structure TeamPage where
  teams : List TeamDoc
  users : List User
  selectedTeam : Option TeamDoc
  showDeleteModal : Bool
  actionLoading : Bool
  loading : Bool
  message : Message
deriving DecidableEq, Repr

namespace Team

/-- Embedding of `getTeamMembers` of `Team.jsx`:
`users.filter(user => user.team?._id === teamId || user.team === teamId)`. -/
def getTeamMembers (users : List User) (teamId : String) : List User :=
  users.filter (fun user =>
    match user.team with
    | some (.populated i _) => i == teamId
    | some (.idOnly i) => i == teamId
    | none => false)

/-- The request of `handleDelete` of `Team.jsx`: the id of the team whose
DELETE is sent. -/
def handleDeleteRequest (st : TeamPage) : Handled String :=
  match st.selectedTeam with
  | none => .ignored
  | some team => .submitted team._id

/-- Embedding of `handleDelete` of `Team.jsx`: the state once the handler has
finished, `response` being how the awaited DELETE ended. After a fulfilled
DELETE the handler calls `fetchData`, which sets `loading` and reloads
`teams` and `users` later, from the server. -/
def handleDelete (st : TeamPage) (response : Response) : TeamPage :=
  match st.selectedTeam with
  | none => st
  | some _ =>
    match response with
    | .fulfilled =>
      { st with
        message := { type := "success", text := "Team deleted successfully" }
        showDeleteModal := false
        selectedTeam := none
        loading := true
        actionLoading := false }
    | .failed m =>
      { st with
        message := { type := "error", text := orElseString m "Failed to delete team" }
        actionLoading := false }

end Team

/-- A role named `EDITOR` as the roles endpoint returns it. -/
def existingEditor : Role :=
  { _id := "r5", name := "EDITOR", permissions := some [] }

/-- The roles page holding `EDITOR`, with the create form filled in for a
role `editor`. -/
def duplicateCreatePage : CreateRolePage :=
  { roles := [existingEditor]
    newRole := { name := "editor", description := "second editor" }
    showCreateModal := true
    saving := false
    loading := false
    message := { type := "", text := "" } }

/-- The team `T1`. -/
def teamT1 : TeamDoc :=
  { _id := "t1", name := some "T1" }

/-- A user who is a member of `T1`. -/
def memberOfT1 : User :=
  { _id := "u3", name := some "Cy", email := some "cy@example.com",
    team := some (.populated "t1" "T1") }

/-- The team page with `T1` selected for deletion while `memberOfT1`
references it. -/
def deleteT1Page : TeamPage :=
  { teams := [teamT1]
    users := [memberOfT1]
    selectedTeam := some teamT1
    showDeleteModal := true
    actionLoading := false
    loading := false
    message := { type := "", text := "" } }

/-! ## Session storage, login and logout -/

/-- The entries of `localStorage`, as `(key, value)` pairs. -/
abbrev Storage := List (String × String)

/-- The call `localStorage.getItem(key)`: `none` for `null`. -/
def getItem (ls : Storage) (key : String) : Option String :=
  (ls.find? (fun e => e.1 == key)).map (fun e => e.2)

/-- The call `localStorage.setItem(key, value)`. -/
def setItem (ls : Storage) (key value : String) : Storage :=
  if ls.any (fun e => e.1 == key) then
    ls.map (fun e => if e.1 == key then (key, value) else e)
  else ls ++ [(key, value)]

/-- The call `localStorage.removeItem(key)`. -/
def removeItem (ls : Storage) (key : String) : Storage :=
  ls.filter (fun e => e.1 != key)

/-- The value of `a || b` for two results of `getItem`: the empty string
and `null` are falsy. -/
def jsOr (a b : Option String) : Option String :=
  match a with
  | some s => if s = "" then b else some s
  | none => b

/-- The header text of the template literal with `token` interpolated;
`null` prints as `null`. -/
def bearer (token : Option String) : String :=
  "Bearer " ++ token.getD "null"

namespace Users

/-- Embedding of `getAuthHeaders` of `Users.jsx`: the `Authorization` header. -/
def getAuthHeaders (ls : Storage) : String :=
  bearer (jsOr (getItem ls "adminToken") (getItem ls "token"))

end Users

namespace Roles

/-- Embedding of `getAuthHeaders` of `Roles.jsx`: the `Authorization` header. -/
def getAuthHeaders (ls : Storage) : String :=
  bearer (jsOr (getItem ls "adminToken") (getItem ls "token"))

end Roles

namespace Team

/-- Embedding of `getAuthHeaders` of `Team.jsx`: the `Authorization` header. -/
def getAuthHeaders (ls : Storage) : String :=
  bearer (jsOr (getItem ls "adminToken") (getItem ls "token"))

end Team

namespace AuditLogs

/-- Embedding of `getAuthHeaders` of `Auditlogs.jsx`: the `Authorization`
header. -/
def getAuthHeaders (ls : Storage) : String :=
  bearer (jsOr (getItem ls "token") (getItem ls "adminToken"))

end AuditLogs

namespace Dashboard

/-- Embedding of `getAuthHeaders` of `Dashboard.jsx`: the `Authorization`
header. -/
def getAuthHeaders (ls : Storage) : String :=
  bearer (jsOr (getItem ls "token") (getItem ls "adminToken"))

end Dashboard

/-- The class `[^\s@]` of the email pattern. -/
def isEmailChar (c : Char) : Bool :=
  !isJsWhitespace c && c != '@'

/-- Match `X+` followed by the rest `k` of the pattern, `X` being the
characters that satisfy `p`. -/
def plusThen (p : Char → Bool) (k : List Char → Bool) : List Char → Bool
  | [] => false
  | c :: cs => p c && (k cs || plusThen p k cs)

/-- Match the literal character `c` followed by the rest `k` of the pattern. -/
def litThen (c : Char) (k : List Char → Bool) : List Char → Bool
  | [] => false
  | d :: ds => d == c && k ds

/-- The test `emailRegex.test(email)` for the pattern
`^[^\s@]+@[^\s@]+\.[^\s@]+$` of both login pages. -/
def emailRegexTest (email : String) : Bool :=
  plusThen isEmailChar
    (litThen '@' (plusThen isEmailChar (litThen '.' (plusThen isEmailChar List.isEmpty))))
    email.toList

/-- The `formData` state of the login pages. -/
structure LoginForm where
  email : String := ""
  password : String := ""
  rememberMe : Bool := false
deriving DecidableEq, Repr

/-- The authentication result `{success, token?, user?, message?}`; `user`
is the JSON text of the user object. -/
structure AuthResult where
  success : Option Bool := none
  token : Option String := none
  user : Option String := none
  message : Option String := none
deriving DecidableEq, Repr

/-- How the awaited login request ended: with a result, with an error that
carries a response (`status`, `data?.message`, `data?.error`), with an error
without response but with a request (and its `code`), or with another error. -/
inductive LoginOutcome where
  | result (r : AuthResult)
  | httpError (status : Nat) (message : Option String) (error : Option String)
  | noResponse (code : Option String)
  | otherError
deriving DecidableEq, Repr

/-- What a login page holds and touches: storage, its `loading` and `error`
state and the route it navigated to. -/
structure LoginState where
  storage : Storage
  loading : Bool
  error : String
  navigatedTo : Option String
deriving DecidableEq, Repr

/-- The text that storage keeps for a value that may be `undefined`
(`result.token`, `JSON.stringify(result.user)`). -/
def storedText (v : Option String) : String :=
  v.getD "undefined"

namespace Login

/-- The `switch` on `err.response.status` of `Login.jsx`. -/
def statusMessage (status : Nat) (message : Option String) : String :=
  if status = 400 then "Invalid email or password format"
  else if status = 401 then "Invalid credentials. Please try again."
  else if status = 403 then "Access denied. Please contact administrator."
  else if status = 404 then "Account not found"
  else if status = 429 then "Too many login attempts. Please try again later."
  else if status = 500 then "Server error. Please try again later."
  else orElseString message "Login failed. Please check your credentials."

/-- Embedding of `handleSubmit` of `Login.jsx`: the state once the handler
has finished. `now` is the value of `Date.now()`. -/
def handleSubmit (st : LoginState) (formData : LoginForm) (outcome : LoginOutcome)
    (now : Nat) : LoginState :=
  if formData.email = "" ∨ formData.password = "" then
    { st with error := "Please fill in all fields", loading := false }
  else if emailRegexTest formData.email = false then
    { st with error := "Please enter a valid email address", loading := false }
  else
    match outcome with
    | .result r =>
      if r.success = some true then
        let s1 := setItem st.storage "token" (storedText r.token)
        let s2 := setItem s1 "user" (storedText r.user)
        let s3 :=
          if formData.rememberMe then
            setItem (setItem s2 "rememberUser" "true") "userEmail" formData.email
          else removeItem (removeItem s2 "rememberUser") "userEmail"
        let s4 := setItem s3 "tokenTimestamp" (toString now)
        { storage := s4, loading := false, error := "", navigatedTo := some "/dashboard" }
      else
        { st with error := orElseString r.message "Login failed", loading := false }
    | .httpError status message _ =>
      { st with error := statusMessage status message, loading := false }
    | .noResponse _ =>
      { st with error := "Network error. Please check your internet connection.",
                loading := false }
    | .otherError =>
      { st with error := "An error occurred. Please try again.", loading := false }

end Login

namespace AdminLogin

/-- The `switch` on `err.response.status` of `Adminlogin.jsx`. -/
def statusMessage (status : Nat) (message error : Option String) : String :=
  if status = 400 then "Invalid email or password format"
  else if status = 401 then "Invalid credentials. Please try again."
  else if status = 403 then "Access denied. You do not have admin privileges."
  else if status = 404 then "Admin account not found"
  else if status = 429 then "Too many login attempts. Please try again later."
  else if status = 500 then "Server error. Please try again later."
  else orElseString message
    (orElseString error "Login failed. Please check your credentials.")

/-- Embedding of `handleSubmit` of `Adminlogin.jsx`: the state once the
handler has finished. `now` is the value of `Date.now()`. -/
def handleSubmit (st : LoginState) (formData : LoginForm) (outcome : LoginOutcome)
    (now : Nat) : LoginState :=
  if formData.email = "" ∨ formData.password = "" then
    { st with error := "Please fill in all fields", loading := false }
  else if emailRegexTest formData.email = false then
    { st with error := "Please enter a valid email address", loading := false }
  else
    match outcome with
    | .result r =>
      if r.success = some true then
        let s1 := setItem st.storage "token" (storedText r.token)
        let s2 := setItem s1 "adminToken" (storedText r.token)
        let s3 := setItem s2 "user" (storedText r.user)
        let s4 := setItem s3 "adminUser" (storedText r.user)
        let s5 :=
          if formData.rememberMe then
            setItem (setItem s4 "rememberAdmin" "true") "adminEmail" formData.email
          else removeItem (removeItem s4 "rememberAdmin") "adminEmail"
        let s6 := setItem s5 "tokenTimestamp" (toString now)
        { storage := s6, loading := false, error := "",
          navigatedTo := some "/admin/dashboard" }
      else
        { st with error := orElseString r.message "Login failed", loading := false }
    | .httpError status message error =>
      { st with error := statusMessage status message error, loading := false }
    | .noResponse code =>
      if code = some "ECONNABORTED" then
        { st with error := "Request timeout. Please check your connection and try again.",
                  loading := false }
      else
        { st with error := "Network error. Please check your internet connection.",
                  loading := false }
    | .otherError =>
      { st with error := "An error occurred. Please try again.", loading := false }

end AdminLogin

namespace AdminLayout

/-- Embedding of `handleLogout` of `Adminlayout.jsx`: the storage it leaves
and the route it navigates to. -/
def handleLogout (ls : Storage) : Storage × String :=
  (removeItem ls "token", "/login")

end AdminLayout

/-- A login page before any login: empty storage, idle. -/
def freshLogin : LoginState :=
  { storage := [], loading := false, error := "", navigatedTo := none }

/-- A filled-in login form for the admin. -/
def adminForm : LoginForm :=
  { email := "admin@example.com", password := "admin123", rememberMe := false }

/-- A filled-in login form for a user. -/
def userForm : LoginForm :=
  { email := "ann@example.com", password := "secret", rememberMe := false }

/-- A successful authentication result for the admin, with token `A`. -/
def adminResult : AuthResult :=
  { success := some true, token := some "A", user := some "\x7b\"id\":\"u0\"\x7d" }

/-- A successful authentication result for a user, with token `B`. -/
def userResult : AuthResult :=
  { success := some true, token := some "B", user := some "\x7b\"id\":\"u1\"\x7d" }

/-- The storage after a successful admin login on a fresh browser. -/
def storageAfterAdminLogin : Storage :=
  (AdminLogin.handleSubmit freshLogin adminForm (.result adminResult) 1700000000000).storage

/-- The storage after a successful user login on a fresh browser. -/
def storageAfterUserLogin : Storage :=
  (Login.handleSubmit freshLogin userForm (.result userResult) 1700000000000).storage

/-- The storage after a successful admin login followed by a successful user
login in the same browser. -/
def storageAfterBothLogins : Storage :=
  (Login.handleSubmit { freshLogin with storage := storageAfterAdminLogin } userForm
    (.result userResult) 1700000600000).storage

/-! ## Users page and registration: what the user operations submit -/

/-- One entry of the `roles` array of a user payload:
`{ role, validFrom, validTill }` (registration sends `role` only). -/
structure RoleAssignmentPayload where
  role : String
  validFrom : Option Instant := none
  validTill : Option Instant := none
deriving DecidableEq, Repr

/-- The body that `handleCreate` of `Users.jsx` and `handleSubmit` of
`RegisterUser.jsx` post; `teamId` is `none` for `null`. -/
structure CreateUserPayload where
  name : String
  email : String
  password : String
  roles : List RoleAssignmentPayload
  teamId : Option String
deriving DecidableEq, Repr

/-- The body that `handleUpdate` of `Users.jsx` sends; `password`, `roles` and
`teamId` are `none` when the payload has no such property. -/
structure UpdateUserPayload where
  name : String
  email : String
  isActive : Bool
  password : Option String
  roles : Option (List RoleAssignmentPayload)
  teamId : Option String
deriving DecidableEq, Repr

/-- The `formData` state of `RegisterUser.jsx`. -/
structure RegisterForm where
  name : String := ""
  email : String := ""
  password : String := ""
  roleId : String := ""
  teamId : String := ""
deriving DecidableEq, Repr

/-- The value of `s || null` for a string. -/
def orNull (s : String) : Option String :=
  if s = "" then none else some s

/-- A change of one input of the edit form, as `handleInputChange` gets it:
the input's `name` and its `value` (`checked` for the checkbox). -/
inductive InputEvent where
  | name (value : String)
  | email (value : String)
  | password (value : String)
  | roleId (value : String)
  | roleValidFrom (value : String)
  | roleValidTill (value : String)
  | teamId (value : String)
  | isActive (checked : Bool)
deriving DecidableEq, Repr

namespace Users

/-- Embedding of `handleCreate` of `Users.jsx` up to its POST. An invalid
date throws inside the `try`, and the `catch` then sets the message
`Failed to create user`. -/
def handleCreate (formData : FormData) : Handled CreateUserPayload :=
  if formData.roleId = "" then
    .submitted
      { name := formData.name, email := formData.email, password := formData.password,
        roles := [], teamId := orNull formData.teamId }
  else
    match dateOrNull formData.roleValidFrom, dateOrNull formData.roleValidTill with
    | some vf, some vt =>
      .submitted
        { name := formData.name, email := formData.email, password := formData.password,
          roles := [{ role := formData.roleId, validFrom := vf, validTill := vt }],
          teamId := orNull formData.teamId }
    | _, _ => .rejected "Failed to create user"

/-- Embedding of `handleUpdate` of `Users.jsx` up to its PATCH: the id in the
URL and the payload. An invalid date, or no selected user, throws inside the
`try`, and the `catch` then sets the message `Failed to update user`. -/
def handleUpdate (selectedUser : Option User) (formData : FormData) :
    Handled (String × UpdateUserPayload) :=
  let roles : Option (Option (List RoleAssignmentPayload)) :=
    if formData.roleId = "" then some none
    else
      match dateOrNull formData.roleValidFrom, dateOrNull formData.roleValidTill with
      | some vf, some vt =>
        some (some [{ role := formData.roleId, validFrom := vf, validTill := vt }])
      | _, _ => none
  match roles, selectedUser with
  | some rs, some user =>
    .submitted (user._id,
      { name := formData.name, email := formData.email, isActive := formData.isActive,
        password := orNull formData.password, roles := rs,
        teamId := orNull formData.teamId })
  | _, _ => .rejected "Failed to update user"

/-- Embedding of `isSelfEdit` of `Users.jsx`; `currentUserId` is the id that
`getCurrentUserId` reads from the stored user. -/
def isSelfEdit (selectedUser : Option User) (currentUserId : Option String) : Bool :=
  match selectedUser, currentUserId with
  | some user, some cid => cid != "" && (user._id == cid || user.id == some cid)
  | _, _ => false

/-- Embedding of `handleInputChange` of `Users.jsx`:
`{ ...prev, [name]: type === 'checkbox' ? checked : value }`. -/
def handleInputChange (prev : FormData) (e : InputEvent) : FormData :=
  match e with
  | .name v => { prev with name := v }
  | .email v => { prev with email := v }
  | .password v => { prev with password := v }
  | .roleId v => { prev with roleId := v }
  | .roleValidFrom v => { prev with roleValidFrom := v }
  | .roleValidTill v => { prev with roleValidTill := v }
  | .teamId v => { prev with teamId := v }
  | .isActive b => { prev with isActive := b }

/-- Whether the edit modal renders the input of an event: the role select is
replaced by a disabled display when `isSelfEdit()`, the two validity dates
are rendered when `formData.roleId` is set, every other input always. -/
def editInputRendered (selfEdit : Bool) (formData : FormData) (e : InputEvent) : Bool :=
  match e with
  | .roleId _ => !selfEdit
  | .roleValidFrom _ => formData.roleId != ""
  | .roleValidTill _ => formData.roleId != ""
  | _ => true

/-- The form after a sequence of input changes in the edit modal opened for
`user`; a change of an input that is not rendered cannot happen and is
skipped. -/
def editSession (user : User) (currentUserId : Option String) (events : List InputEvent) :
    FormData :=
  events.foldl
    (fun fd e =>
      if editInputRendered (isSelfEdit (some user) currentUserId) fd e then
        handleInputChange fd e
      else fd)
    (openEditModal user)

end Users

namespace RegisterUser

/-- Embedding of `handleSubmit` of `RegisterUser.jsx` up to its POST. -/
def handleSubmit (formData : RegisterForm) : Handled CreateUserPayload :=
  .submitted
    { name := formData.name, email := formData.email, password := formData.password,
      roles := if formData.roleId = "" then [] else [{ role := formData.roleId }],
      teamId := orNull formData.teamId }

end RegisterUser

/-- An assignment of the role `ADMIN` without bounds. -/
def unboundedAdmin : UserRole :=
  { role := some { _id := some "role-admin", name := some "ADMIN" }, revoked := some false }

/-- The logged-in admin as the users list shows them. -/
def selfUser : User :=
  { _id := "u0", name := some "Root", email := some "admin@example.com",
    isActive := some true, roles := some [unboundedAdmin] }

/-! ## Audit logs and dashboard: filtering and relative times -/

/-- The `user` of an audit fact: `{ name, email }`. -/
structure LogUser where
  name : Option String := none
  email : Option String := none
deriving DecidableEq, Repr

/-- An audit fact as the audit-logs endpoint returns it:
`{ _id, user, action, entity, entityId, createdAt }`. -/
structure AuditLog where
  _id : String
  user : Option LogUser := none
  action : Option String := none
  entity : Option String := none
  entityId : Option String := none
  createdAt : Option Instant := none
deriving DecidableEq, Repr

/-- Whether the characters `t` stand at the start of `s`. -/
def startsWithChars : List Char → List Char → Bool
  | _, [] => true
  | [], _ :: _ => false
  | c :: cs, d :: ds => c == d && startsWithChars cs ds

/-- Whether the characters `t` occur in `s` as a contiguous run. -/
def includesChars : List Char → List Char → Bool
  | [], t => t.isEmpty
  | c :: cs, t => startsWithChars (c :: cs) t || includesChars cs t

/-- The method `String.prototype.includes`. -/
def includes (s searchString : String) : Bool :=
  includesChars s.toList searchString.toList

/-- What a relative-time helper returns: a text, or the date of the timestamp
in the `en-US` short form (`formatDate(dateString).date`), or in the form of
the browser's locale (`toLocaleDateString()`). -/
inductive TimeAgo where
  | text (t : String)
  | shortDate (dateString : Instant)
  | localeDate (dateString : Instant)
deriving DecidableEq, Repr

namespace AuditLogs

/-- One disjunct of `matchesSearch`:
`field?.toLowerCase().includes(searchTerm.toLowerCase())`, which is `undefined`
(falsy) for a missing field. `toLowerCase` is the platform's method, a
parameter of the embedding. -/
def searchHit (toLowerCase : String → String) (field : Option String)
    (searchTerm : String) : Bool :=
  match field with
  | some f => includes (toLowerCase f) (toLowerCase searchTerm)
  | none => false

/-- The callback of the `filter` in `filteredLogs`. -/
def matchesLog (toLowerCase : String → String) (searchTerm actionFilter entityFilter : String)
    (log : AuditLog) : Bool :=
  let matchesSearch :=
    searchHit toLowerCase (log.user.bind (fun u => u.name)) searchTerm ||
    searchHit toLowerCase (log.user.bind (fun u => u.email)) searchTerm ||
    searchHit toLowerCase log.entity searchTerm ||
    searchHit toLowerCase log.action searchTerm
  let matchesAction := actionFilter == "" || log.action == some actionFilter
  let matchesEntity := entityFilter == "" || log.entity == some entityFilter
  matchesSearch && matchesAction && matchesEntity

/-- Embedding of `filteredLogs` of `Auditlogs.jsx`. -/
def filteredLogs (toLowerCase : String → String) (logs : List AuditLog)
    (searchTerm actionFilter entityFilter : String) : List AuditLog :=
  logs.filter (matchesLog toLowerCase searchTerm actionFilter entityFilter)

/-- Embedding of `getTimeAgo` of `Auditlogs.jsx`; `now` is the instant that
`new Date()` reads and `dateString` a valid timestamp. -/
def getTimeAgo (now dateString : Instant) : TimeAgo :=
  let seconds : Int := (now - dateString) / 1000
  if seconds < 60 then .text "Just now"
  else if seconds < 3600 then .text (toString (seconds / 60) ++ "m ago")
  else if seconds < 86400 then .text (toString (seconds / 3600) ++ "h ago")
  else if seconds < 604800 then .text (toString (seconds / 86400) ++ "d ago")
  else .shortDate dateString

end AuditLogs

namespace Dashboard

/-- Embedding of `getTimeAgo` of `Dashboard.jsx`; `now` is the instant that
`new Date()` reads and `dateString` a valid timestamp. -/
def getTimeAgo (now dateString : Instant) : TimeAgo :=
  let seconds : Int := (now - dateString) / 1000
  if seconds < 60 then .text "Just now"
  else if seconds < 3600 then .text (toString (seconds / 60) ++ "m ago")
  else if seconds < 86400 then .text (toString (seconds / 3600) ++ "h ago")
  else if seconds < 604800 then .text (toString (seconds / 86400) ++ "d ago")
  else .localeDate dateString

end Dashboard

/-- The search term occurs in the field, letter case ignored: the lower-cased
term is a contiguous run of the lower-cased field. -/
def ContainsIgnoringCase (toLowerCase : String → String) (field searchTerm : String) : Prop :=
  ∃ pre post : List Char,
    (toLowerCase field).toList = pre ++ (toLowerCase searchTerm).toList ++ post

/-- The audit facts that `filteredLogs` is said to list: the search term
occurs, letter case ignored, in the user name, the user email, the entity or
the action, the action is the action filter when one is set, and the entity
is the entity filter when one is set. -/
def MatchesFilters (toLowerCase : String → String)
    (searchTerm actionFilter entityFilter : String) (log : AuditLog) : Prop :=
  ((∃ u n, log.user = some u ∧ u.name = some n ∧
      ContainsIgnoringCase toLowerCase n searchTerm) ∨
    (∃ u e, log.user = some u ∧ u.email = some e ∧
      ContainsIgnoringCase toLowerCase e searchTerm) ∨
    (∃ e, log.entity = some e ∧ ContainsIgnoringCase toLowerCase e searchTerm) ∨
    (∃ a, log.action = some a ∧ ContainsIgnoringCase toLowerCase a searchTerm)) ∧
  (actionFilter = "" ∨ log.action = some actionFilter) ∧
  (entityFilter = "" ∨ log.entity = some entityFilter)

/-- Lower-casing of the ASCII letters, every other character kept: the
method `toLowerCase` on the concrete inputs below, which are written in ASCII. -/
def asciiLower (s : String) : String :=
  String.mk (s.toList.map Char.toLower)

/-- An audit fact of the documented shape: Ann created a role. -/
def createLog : AuditLog :=
  { _id := "l1", user := some { name := some "Ann", email := some "ann@example.com" },
    action := some "CREATE", entity := some "Role", entityId := some "r1",
    createdAt := some 1700000000000 }

/-- An audit fact of the documented shape: Bob logged in. -/
def loginLog : AuditLog :=
  { _id := "l2", user := some { name := some "Bob", email := some "bob@example.com" },
    action := some "LOGIN", entity := some "User", entityId := some "u2",
    createdAt := some 1700000100000 }

/-! ## Login pages: the request that `handleSubmit` makes -/

/-- An email as the claim on the login checks describes it: no white space,
exactly one `@` with a non-empty part before it, and after it a part that
holds a `.` which is neither its first nor its last character. -/
def WellFormedEmail (email : String) : Prop :=
  (∀ c ∈ email.toList, isJsWhitespace c = false) ∧
  email.toList.count '@' = 1 ∧
  ∃ front domain : List Char, email.toList = front ++ '@' :: domain ∧ front ≠ [] ∧
    ∃ pre post : List Char, domain = pre ++ '.' :: post ∧ pre ≠ [] ∧ post ≠ []

namespace Login

/-- The call `loginUser(formData.email, formData.password)` that
`handleSubmit` of `Login.jsx` makes, or the message it sets instead. -/
def loginRequest (formData : LoginForm) : Handled (String × String) :=
  if formData.email = "" ∨ formData.password = "" then .rejected "Please fill in all fields"
  else if emailRegexTest formData.email = false then
    .rejected "Please enter a valid email address"
  else .submitted (formData.email, formData.password)

end Login

namespace AdminLogin

/-- The call `loginAdmin(formData.email, formData.password)` that
`handleSubmit` of `Adminlogin.jsx` makes, or the message it sets instead. -/
def loginRequest (formData : LoginForm) : Handled (String × String) :=
  if formData.email = "" ∨ formData.password = "" then .rejected "Please fill in all fields"
  else if emailRegexTest formData.email = false then
    .rejected "Please enter a valid email address"
  else .submitted (formData.email, formData.password)

end AdminLogin

/-- The value of an `<input type="date">` that names a day of the calendar:
`YYYY-MM-DD` with four digits of the year, two of the month and two of the
day, the month within 1..12 and the day within the month of that year. -/
def IsCalendarDate (v : String) : Prop :=
  ∃ (y1 y2 y3 y4 m1 m2 d1 d2 : Char) (a b c e f g p q : Nat),
    v.toList = [y1, y2, y3, y4, '-', m1, m2, '-', d1, d2] ∧
    digitValue y1 = some a ∧ digitValue y2 = some b ∧ digitValue y3 = some c ∧
    digitValue y4 = some e ∧ digitValue m1 = some f ∧ digitValue m2 = some g ∧
    digitValue d1 = some p ∧ digitValue d2 = some q ∧
    1 ≤ f * 10 + g ∧ f * 10 + g ≤ 12 ∧ 1 ≤ p * 10 + q ∧
    p * 10 + q ≤ daysInMonth (a * 1000 + b * 100 + c * 10 + e) (f * 10 + g)

/-! ## Properties of permission lists and concrete inputs -/

/-- At most one entry per key. -/
def OneEntryPerKey (ps : List Permission) : Prop :=
  ∀ k : String, ps.countP (fun p => p.key == k) ≤ 1

/-- At most one entry per key that the code reads as effective
(not revoked and `isActive` not `false`). -/
def OneEffectivePerKey (ps : List Permission) : Prop :=
  ∀ k : String, ps.countP (isActiveEntry k) ≤ 1

/-- A revoked grant of `user.read`. -/
def revokedRead : Permission :=
  { key := "user.read", scope := some "global", isActive := some true, revoked := some true }

/-- The grant that toggling `user.read` on appends. -/
def freshRead : Permission :=
  { key := "user.read", scope := some "global", isActive := some true, revoked := some false }

/-- A role whose only grant of `user.read` is revoked. -/
def roleWithRevokedRead : Role :=
  { _id := "r1", name := "EDITOR", permissions := some [revokedRead] }

/-- A live grant of `team.read`. -/
def liveTeamRead : Permission :=
  { key := "team.read", scope := some "team", isActive := some true, revoked := some false }

/-- A role holding a live grant of `user.read`, a revoked one and a grant
of another key. -/
def roleWithLiveRead : Role :=
  { _id := "r2", name := "VIEWER", permissions := some [freshRead, liveTeamRead, revokedRead] }

/-- A grant of `user.read` that is live but whose validity ended at instant 0. -/
def expiredRead : Permission :=
  { key := "user.read", scope := some "global", isActive := some true, revoked := some false,
    validTill := some 0 }

/-- A role whose only grant of `user.read` has expired. -/
def roleWithExpiredRead : Role :=
  { _id := "r3", name := "AUDITOR", permissions := some [expiredRead] }

/-- A grant of `user.read` valid until 2024-01-01. -/
def readTill2024 : Permission :=
  { key := "user.read", scope := some "global", isActive := some true, revoked := some false,
    validTill := some 1704067200000 }

/-- A role holding the grant `readTill2024`. -/
def roleWithReadTill2024 : Role :=
  { _id := "r4", name := "TEMP", permissions := some [readTill2024] }

/-- A create-role form whose validity starts in 2025 and ends in 2024. -/
def backwardsNewRole : NewRole :=
  { name := "editor", description := "edits", validFrom := "2025-01-01",
    validTill := "2024-01-01" }

/-- An assignment of the role `ADMIN` that is not revoked and expired at
instant 0. -/
def expiredAdmin : UserRole :=
  { role := some { _id := some "role-admin", name := some "ADMIN" }, revoked := some false,
    validTill := some 0 }

/-- A user whose only assignment has expired. -/
def userWithExpiredRole : User :=
  { _id := "u1", name := some "Ann", email := some "ann@example.com",
    roles := some [expiredAdmin] }

/-- A user whose only assignment refers to a role that did not resolve. -/
def userWithDanglingRole : User :=
  { _id := "u2", name := some "Bob", email := some "bob@example.com",
    roles := some [{ role := none, revoked := some false }] }

/-- The same user with no role assignment at all. -/
def userWithNoRole : User :=
  { _id := "u2", name := some "Bob", email := some "bob@example.com", roles := some [] }

/-- Replace the validity bounds of every assignment of a user. -/
def withBounds (user : User) (f g : UserRole → Option Instant) : User :=
  let rebound : List UserRole → List UserRole :=
    fun rs => rs.map (fun r => { r with validFrom := f r, validTill := g r })
  { user with roles := user.roles.map rebound }

/-- The role `EDITOR` of scenario A: `user.update` with scope team, unbounded. -/
def editorRole : RoleRecord :=
  { id := "EDITOR", name := "EDITOR", grants := [{ key := "user.update", scope := .team }] }

/-- The role `SUPERADMIN` of scenario D: `user.update` with scope global. -/
def superadminRole : RoleRecord :=
  { id := "SUPERADMIN", name := "SUPERADMIN",
    grants := [{ key := "user.update", scope := .global }] }

/-- A role lookup that knows `EDITOR` and `SUPERADMIN` only. -/
def scenarioLookup (id : String) : Option RoleRecord :=
  if id = "EDITOR" then some editorRole
  else if id = "SUPERADMIN" then some superadminRole
  else none

/-- The user `U` of team `T1` holding `SUPERADMIN` only. -/
def superadminUser : UserRecord :=
  { id := "U", name := "U", team := some "T1", assignments := [{ role := "SUPERADMIN" }] }

/-- The user `U` of scenario D: team `T1`, holding `EDITOR` and `SUPERADMIN`. -/
def scenarioDUser : UserRecord :=
  { id := "U", name := "U", team := some "T1",
    assignments := [{ role := "EDITOR" }, { role := "SUPERADMIN" }] }

/-- The user `U` holding `SUPERADMIN` and an assignment of a role `GHOST`
that the lookup does not know. -/
def ghostUser : UserRecord :=
  { id := "U", name := "U", team := some "T1",
    assignments := [{ role := "SUPERADMIN" }, { role := "GHOST" }] }

/-! ## Lemmas on the permission handlers -/

theorem getPermissionStatus_active_iff (role : Role) (k : String) :
    (getPermissionStatus role k).active = true ↔
      ∃ ps, role.permissions = some ps ∧ ∃ p ∈ ps, isActiveEntry k p = true := by
  unfold getPermissionStatus
  cases hps : role.permissions with
  | none => simp
  | some ps =>
    simp only [Option.some_bind]
    cases hf : ps.find? (isActiveEntry k) with
    | none =>
      simp only [List.find?_eq_none] at hf
      simp
      intro p hp
      simpa using hf p hp
    | some q =>
      have h1 := List.find?_some hf
      have h2 := List.mem_of_find?_eq_some hf
      simp
      exact ⟨q, h2, h1⟩

theorem countP_eq_zero_of_inactive (role : Role) (ps : List Permission) (k : String)
    (hps : role.permissions = some ps) (h : (getPermissionStatus role k).active = false) :
    ps.countP (isActiveEntry k) = 0 := by
  rw [List.countP_eq_zero]
  intro p hp hact
  have : (getPermissionStatus role k).active = true :=
    (getPermissionStatus_active_iff role k).2 ⟨ps, hps, p, hp, hact⟩
  rw [h] at this
  exact Bool.noConfusion this



/-- The entry that `handlePermissionToggle` appends for a key. -/
theorem isActiveEntry_new (k k' : String) :
    isActiveEntry k' { key := k, scope := some "global", isActive := some true,
                       revoked := some false } = (k == k') := by
  have h1 : (some false != some true) = true := by decide
  have h2 : (some true != some false) = true := by decide
  simp [isActiveEntry, h1, h2]

theorem toggle_active (role : Role) (ps : List Permission) (k : String)
    (hps : role.permissions = some ps) (h : (getPermissionStatus role k).active = true) :
    handlePermissionToggle (some role) k =
      .submitted (role._id, ps.filter (fun p => p.key != k)) := by
  simp [handlePermissionToggle, hps, h]

theorem toggle_inactive (role : Role) (ps : List Permission) (k : String)
    (hps : role.permissions = some ps) (h : (getPermissionStatus role k).active = false) :
    handlePermissionToggle (some role) k =
      .submitted (role._id, ps ++ [{ key := k, scope := some "global", isActive := some true,
                                     revoked := some false }]) := by
  simp [handlePermissionToggle, hps, h]

theorem countP_filter_le (ps : List Permission) (f g : Permission → Bool) :
    (ps.filter f).countP g ≤ ps.countP g := by
  induction ps with
  | nil => simp
  | cons a t ih =>
    by_cases hf : f a = true <;> by_cases hg : g a = true <;>
      simp [List.filter_cons, List.countP_cons, hf, hg] <;> omega

theorem mapThrowing_date_some (ps : List Permission) (k : String) (field : DateField)
    (value : String) (v : Option Instant) (hv : dateOrNull value = some v) :
    mapThrowing (fun p => if p.key = k then (dateOrNull value).map (setDateField p field)
        else some p) ps
      = some (ps.map (fun p => if p.key = k then setDateField p field v else p)) := by
  induction ps with
  | nil => rfl
  | cons a t ih =>
    simp only [mapThrowing, ih, List.map_cons]
    by_cases hk : a.key = k <;> simp [hk, hv]

theorem mapThrowing_date_none (ps ps' : List Permission) (k : String) (field : DateField)
    (value : String) (hv : dateOrNull value = none)
    (h : mapThrowing (fun p => if p.key = k then (dateOrNull value).map (setDateField p field)
        else some p) ps = some ps') : ps' = ps := by
  induction ps generalizing ps' with
  | nil =>
    simp only [mapThrowing, Option.some.injEq] at h
    exact h.symm
  | cons a t ih =>
    simp only [mapThrowing] at h
    by_cases hk : a.key = k
    · simp [hk, hv] at h
    · simp only [hk, if_false] at h
      cases hm : mapThrowing (fun p => if p.key = k then
          (dateOrNull value).map (setDateField p field) else some p) t with
      | none => simp [hm] at h
      | some t' =>
        have := ih t' hm
        simp only [hm, Option.some.injEq] at h
        rw [← h, this]

theorem isActiveEntry_setDateField (k : String) (p : Permission) (field : DateField)
    (v : Option Instant) : isActiveEntry k (setDateField p field v) = isActiveEntry k p := by
  cases field <;> rfl

theorem countP_map_eq (ps : List Permission) (f : Permission → Permission)
    (g : Permission → Bool) (h : ∀ p, g (f p) = g p) :
    (ps.map f).countP g = ps.countP g := by
  induction ps with
  | nil => simp
  | cons a t ih => simp [List.countP_cons, ih, h]

theorem dateChange_submitted (role : Role) (ps : List Permission) (k : String)
    (field : DateField) (value : String) (out : String × List Permission)
    (hps : role.permissions = some ps)
    (h : handlePermissionDateChange (some role) k field value = .submitted out) :
    out.1 = role._id ∧
      ((∃ v, dateOrNull value = some v ∧
          out.2 = ps.map (fun p => if p.key = k then setDateField p field v else p)) ∨
        (dateOrNull value = none ∧ out.2 = ps)) := by
  simp only [handlePermissionDateChange, hps] at h
  cases hv : dateOrNull value with
  | some v =>
    rw [mapThrowing_date_some ps k field value v hv] at h
    simp only [Handled.submitted.injEq] at h
    subst h
    exact ⟨rfl, Or.inl ⟨v, rfl, rfl⟩⟩
  | none =>
    cases hm : mapThrowing (fun p => if p.key = k then
        (dateOrNull value).map (setDateField p field) else some p) ps with
    | none => simp [hm] at h
    | some ps' =>
      have := mapThrowing_date_none ps ps' k field value hv hm
      simp only [hm, Handled.submitted.injEq] at h
      subst h
      exact ⟨rfl, Or.inr ⟨rfl, this⟩⟩

theorem oneEntryPerKey_of_length_le_one (ps : List Permission) (h : ps.length ≤ 1) :
    OneEntryPerKey ps := fun _ => le_trans (List.countP_le_length _) h

theorem oneEffectivePerKey_roleWithLiveRead :
    OneEffectivePerKey [freshRead, liveTeamRead, revokedRead] := by
  intro k
  by_cases h1 : "user.read" = k
  · subst h1; decide
  · by_cases h2 : "team.read" = k
    · subst h2; decide
    · simp [List.countP_cons, isActiveEntry, freshRead, liveTeamRead, revokedRead, h1, h2]

/-! ## C1: one entry per key under `handlePermissionToggle` -/

/-- C1 (counterexample): the role `roleWithRevokedRead` holds one entry per
key, yet toggling `user.read` submits a list with two entries of that key. -/
theorem handlePermissionToggle_stacks_on_revoked :
    roleWithRevokedRead.permissions = some [revokedRead] ∧
    OneEntryPerKey [revokedRead] ∧
    handlePermissionToggle (some roleWithRevokedRead) "user.read" =
      .submitted ("r1", [revokedRead, freshRead]) ∧
    ¬ OneEntryPerKey [revokedRead, freshRead] := by
  refine ⟨rfl, oneEntryPerKey_of_length_le_one _ (by simp), by decide, ?_⟩
  intro h
  exact absurd (h "user.read") (by decide)

/-- C1 (amended): for a role whose permissions list holds at most one entry
per key, the list that `handlePermissionToggle` submits for `k` holds at most
one entry per key exactly when `k` is reported active or the role holds no
entry with key `k`. -/
theorem handlePermissionToggle_oneEntryPerKey_iff (role : Role) (ps : List Permission) (k : String)
    (hps : role.permissions = some ps) (hinv : OneEntryPerKey ps) :
    ∃ out, handlePermissionToggle (some role) k = .submitted (role._id, out) ∧
      (OneEntryPerKey out ↔
        ((getPermissionStatus role k).active = true ∨ ∀ p ∈ ps, p.key ≠ k)) := by
  cases h : (getPermissionStatus role k).active with
  | true =>
    refine ⟨_, toggle_active role ps k hps h, ?_⟩
    simp only [true_or, iff_true]
    intro k'
    exact le_trans (countP_filter_le ps _ _) (hinv k')
  | false =>
    refine ⟨_, toggle_inactive role ps k hps h, ?_⟩
    simp only [Bool.false_eq_true, false_or]
    constructor
    · intro hout p hp hk
      have h1 := hout k
      simp only [List.countP_append, List.countP_cons, List.countP_nil, beq_self_eq_true,
        if_true] at h1
      have h2 : 0 < ps.countP (fun p => p.key == k) :=
        List.countP_pos_iff.2 ⟨p, hp, by simp [hk]⟩
      omega
    · intro hno k'
      simp only [List.countP_append, List.countP_cons, List.countP_nil]
      by_cases hk : k = k'
      · subst hk
        have : ps.countP (fun p => p.key == k) = 0 := by
          rw [List.countP_eq_zero]
          intro p hp
          simpa using hno p hp
        simp [this]
      · have := hinv k'
        simp [hk]
        exact this

/-- C1 (amended), at the role `roleWithRevokedRead` and the key `role.read`,
of which the role holds no entry. -/
theorem handlePermissionToggle_oneEntryPerKey_iff_witness :
    ∃ out, handlePermissionToggle (some roleWithRevokedRead) "role.read" =
        .submitted (roleWithRevokedRead._id, out) ∧
      (OneEntryPerKey out ↔
        ((getPermissionStatus roleWithRevokedRead "role.read").active = true ∨
          ∀ p ∈ [revokedRead], p.key ≠ "role.read")) :=
  handlePermissionToggle_oneEntryPerKey_iff roleWithRevokedRead [revokedRead] "role.read" rfl
    (oneEntryPerKey_of_length_le_one _ (by simp))

/-! ## C2: one effective entry per key under the three handlers -/

/-- C2: for a role whose permissions list holds at most one effective entry
per key, `handlePermissionToggle`, `handleScopeChange` and
`handlePermissionDateChange` each submit a list that again holds at most one
effective entry per key; the first two always submit, the third whenever the
date value is empty or a valid date. -/
theorem handlers_preserve_oneEffectivePerKey (role : Role) (ps : List Permission)
    (hps : role.permissions = some ps) (hinv : OneEffectivePerKey ps) :
    (∀ k, ∃ out, handlePermissionToggle (some role) k = .submitted (role._id, out) ∧
        OneEffectivePerKey out) ∧
    (∀ k newScope, ∃ out, handleScopeChange (some role) k newScope =
        .submitted (role._id, out) ∧ OneEffectivePerKey out) ∧
    (∀ k field value,
      (∀ out, handlePermissionDateChange (some role) k field value = .submitted out →
        OneEffectivePerKey out.2) ∧
      (dateOrNull value ≠ none →
        ∃ out, handlePermissionDateChange (some role) k field value =
          .submitted (role._id, out))) := by
  refine ⟨?_, ?_, ?_⟩
  · intro k
    cases h : (getPermissionStatus role k).active with
    | true =>
      refine ⟨_, toggle_active role ps k hps h, ?_⟩
      intro k'
      exact le_trans (countP_filter_le ps _ _) (hinv k')
    | false =>
      refine ⟨_, toggle_inactive role ps k hps h, ?_⟩
      intro k'
      simp only [List.countP_append, List.countP_cons, List.countP_nil, isActiveEntry_new]
      by_cases hk : k = k'
      · subst hk
        simp [countP_eq_zero_of_inactive role ps k hps h]
      · have := hinv k'
        simp [hk]
        exact this
  · intro k newScope
    refine ⟨ps.map (fun p => if p.key = k then { p with scope := some newScope } else p),
      by simp [handleScopeChange, hps], ?_⟩
    intro k'
    rw [countP_map_eq]
    · exact hinv k'
    · intro p
      by_cases hk : p.key = k <;> simp [hk, isActiveEntry]
  · intro k field value
    constructor
    · intro out h
      obtain ⟨_, h2 | h2⟩ := dateChange_submitted role ps k field value out hps h
      · obtain ⟨v, _, hout⟩ := h2
        rw [hout]
        intro k'
        rw [countP_map_eq]
        · exact hinv k'
        · intro p
          by_cases hk : p.key = k
          · simp only [hk, if_true]
            exact isActiveEntry_setDateField k' p field v
          · simp [hk]
      · rw [h2.2]
        exact hinv
    · intro hv
      cases hd : dateOrNull value with
      | none => exact absurd hd hv
      | some v =>
        refine ⟨ps.map (fun p => if p.key = k then setDateField p field v else p), ?_⟩
        simp only [handlePermissionDateChange, hps]
        rw [mapThrowing_date_some ps k field value v hd]

/-- C2 at the role `roleWithLiveRead`. -/
theorem handlers_preserve_oneEffectivePerKey_witness :
    (∀ k, ∃ out, handlePermissionToggle (some roleWithLiveRead) k =
        .submitted (roleWithLiveRead._id, out) ∧ OneEffectivePerKey out) ∧
    (∀ k newScope, ∃ out, handleScopeChange (some roleWithLiveRead) k newScope =
        .submitted (roleWithLiveRead._id, out) ∧ OneEffectivePerKey out) ∧
    (∀ k field value,
      (∀ out, handlePermissionDateChange (some roleWithLiveRead) k field value =
          .submitted out → OneEffectivePerKey out.2) ∧
      (dateOrNull value ≠ none →
        ∃ out, handlePermissionDateChange (some roleWithLiveRead) k field value =
          .submitted (roleWithLiveRead._id, out))) :=
  handlers_preserve_oneEffectivePerKey roleWithLiveRead [freshRead, liveTeamRead, revokedRead]
    rfl oneEffectivePerKey_roleWithLiveRead

/-! ## C4: toggling an active key off -/

/-- C4: for a key `k` that `getPermissionStatus` reports active,
`handlePermissionToggle` submits a sublist of the role's permissions in which
no entry has key `k` and, for every other key, the entries of that key are
those of the original list in the original order. -/
theorem handlePermissionToggle_active_removes_key (role : Role) (ps : List Permission)
    (k : String) (hps : role.permissions = some ps)
    (hactive : (getPermissionStatus role k).active = true) :
    ∃ out, handlePermissionToggle (some role) k = .submitted (role._id, out) ∧
      out.Sublist ps ∧
      (∀ p ∈ out, p.key ≠ k) ∧
      (∀ p ∈ ps, p.key ≠ k → p ∈ out) ∧
      (∀ k2, k2 ≠ k → out.filter (fun p => p.key == k2) = ps.filter (fun p => p.key == k2)) := by
  refine ⟨_, toggle_active role ps k hps hactive, List.filter_sublist ps, ?_, ?_, ?_⟩
  · intro p hp
    simpa using (List.mem_filter.1 hp).2
  · intro p hp hk
    exact List.mem_filter.2 ⟨hp, by simpa using hk⟩
  · intro k2 hk2
    rw [List.filter_filter]
    apply List.filter_congr
    intro p _
    by_cases h : p.key = k2
    · subst h; simp [hk2]
    · simp [h]

/-- C4 at the role `roleWithLiveRead` and the key `user.read`. -/
theorem handlePermissionToggle_active_removes_key_witness :
    (getPermissionStatus roleWithLiveRead "user.read").active = true ∧
    ∃ out, handlePermissionToggle (some roleWithLiveRead) "user.read" =
        .submitted (roleWithLiveRead._id, out) ∧
      out.Sublist [freshRead, liveTeamRead, revokedRead] ∧
      (∀ p ∈ out, p.key ≠ "user.read") ∧
      (∀ p ∈ [freshRead, liveTeamRead, revokedRead], p.key ≠ "user.read" → p ∈ out) ∧
      (∀ k2, k2 ≠ "user.read" →
        out.filter (fun p => p.key == k2) =
          [freshRead, liveTeamRead, revokedRead].filter (fun p => p.key == k2)) :=
  ⟨by decide,
   handlePermissionToggle_active_removes_key roleWithLiveRead
     [freshRead, liveTeamRead, revokedRead] "user.read" rfl (by decide)⟩

/-! ## C3: what `getPermissionStatus` reports -/

/-- C3 (counterexample): the only grant of `user.read` of `roleWithExpiredRead`
ended at instant 0, so at instant 1 no grant of the key is effective by the
validity rule, yet `getPermissionStatus` reports the key active. -/
theorem getPermissionStatus_ignores_bounds :
    roleWithExpiredRead.permissions = some [expiredRead] ∧
    (getPermissionStatus roleWithExpiredRead "user.read").active = true ∧
    ¬ ∃ p ∈ [expiredRead], p.key = "user.read" ∧ permissionEffective p 1 = true := by
  refine ⟨rfl, by decide, ?_⟩
  decide

theorem isActiveEntry_iff (k : String) (p : Permission) :
    isActiveEntry k p = true ↔ p.key = k ∧ p.revoked ≠ some true ∧ p.isActive ≠ some false := by
  simp [isActiveEntry, and_assoc]

theorem isActiveEntry_of_effective (k : String) (p : Permission) (asOf : Instant)
    (hk : p.key = k) (h : permissionEffective p asOf = true) : isActiveEntry k p = true := by
  simp only [permissionEffective, isEffective, Bool.and_eq_true] at h
  obtain ⟨⟨⟨h1, h2⟩, _⟩, _⟩ := h
  rw [isActiveEntry_iff]
  refine ⟨hk, ?_, ?_⟩
  · intro hr
    simp [hr] at h1
  · simpa using h2

/-- C3 (amended): `getPermissionStatus` reports a key active exactly when the
role holds an entry of that key that is not revoked and whose `isActive` is
not `false`, whatever its `validFrom` and `validTill`; in particular a grant
that is effective by the validity rule at some instant is reported active. -/
theorem getPermissionStatus_active_iff_live (role : Role) (k : String) :
    ((getPermissionStatus role k).active = true ↔
      ∃ ps, role.permissions = some ps ∧
        ∃ p ∈ ps, p.key = k ∧ p.revoked ≠ some true ∧ p.isActive ≠ some false) ∧
    (∀ asOf ps, role.permissions = some ps →
      (∃ p ∈ ps, p.key = k ∧ permissionEffective p asOf = true) →
      (getPermissionStatus role k).active = true) := by
  constructor
  · rw [getPermissionStatus_active_iff]
    constructor
    · rintro ⟨ps, hps, p, hp, h⟩
      exact ⟨ps, hps, p, hp, (isActiveEntry_iff k p).1 h⟩
    · rintro ⟨ps, hps, p, hp, h⟩
      exact ⟨ps, hps, p, hp, (isActiveEntry_iff k p).2 h⟩
  · rintro asOf ps hps ⟨p, hp, hk, h⟩
    exact (getPermissionStatus_active_iff role k).2
      ⟨ps, hps, p, hp, isActiveEntry_of_effective k p asOf hk h⟩

/-- C3 (amended) at the role `roleWithExpiredRead` and the key `user.read`. -/
theorem getPermissionStatus_active_iff_live_witness :
    ((getPermissionStatus roleWithExpiredRead "user.read").active = true ↔
      ∃ ps, roleWithExpiredRead.permissions = some ps ∧
        ∃ p ∈ ps, p.key = "user.read" ∧ p.revoked ≠ some true ∧ p.isActive ≠ some false) ∧
    (∀ asOf ps, roleWithExpiredRead.permissions = some ps →
      (∃ p ∈ ps, p.key = "user.read" ∧ permissionEffective p asOf = true) →
      (getPermissionStatus roleWithExpiredRead "user.read").active = true) :=
  getPermissionStatus_active_iff_live roleWithExpiredRead "user.read"

/-! ## C5, C6: the authorization engine -/

theorem collectScopes_append (lookup : String → Option RoleRecord) (k : String)
    (asOf : Instant) (l1 l2 : List RoleAssignment) :
    collectScopes lookup k asOf (l1 ++ l2) =
      match collectScopes lookup k asOf l1 with
      | .error e => .error e
      | .ok s1 =>
        match collectScopes lookup k asOf l2 with
        | .error e => .error e
        | .ok s2 => .ok (s1 ++ s2) := by
  induction l1 with
  | nil =>
    simp only [List.nil_append, collectScopes]
    cases collectScopes lookup k asOf l2 <;> rfl
  | cons a t ih =>
    rw [List.cons_append]
    simp only [collectScopes]
    rw [ih]
    cases assignmentScopes lookup k asOf a with
    | error e => rfl
    | ok ss =>
      cases collectScopes lookup k asOf t with
      | error e => rfl
      | ok s1 =>
        cases collectScopes lookup k asOf l2 with
        | error e => rfl
        | ok s2 => simp

theorem assignmentScopes_resolved (lookup : String → Option RoleRecord) (k : String)
    (asOf : Instant) (a : RoleAssignment) (h : (lookup a.role).isSome = true) :
    ∃ ss, assignmentScopes lookup k asOf a = .ok ss := by
  unfold assignmentScopes
  cases hl : lookup a.role with
  | none => simp [hl] at h
  | some role =>
    simp only
    split
    · exact ⟨_, rfl⟩
    · exact ⟨_, rfl⟩

theorem collectScopes_resolved (lookup : String → Option RoleRecord) (k : String)
    (asOf : Instant) (l : List RoleAssignment)
    (h : ∀ b ∈ l, (lookup b.role).isSome = true) :
    ∃ S, collectScopes lookup k asOf l = .ok S ∧
      ∀ b ∈ l, ∀ ss, assignmentScopes lookup k asOf b = .ok ss → ∀ s ∈ ss, s ∈ S := by
  induction l with
  | nil => exact ⟨[], rfl, by simp⟩
  | cons a t ih =>
    obtain ⟨S, hS, hmem⟩ := ih (fun b hb => h b (List.mem_cons_of_mem _ hb))
    obtain ⟨ss, hss⟩ := assignmentScopes_resolved lookup k asOf a (h a (List.mem_cons_self _ _))
    refine ⟨ss ++ S, by simp [collectScopes, hss, hS], ?_⟩
    intro b hb ss2 hss2 s hs
    rcases List.mem_cons.1 hb with hba | hbt
    · subst hba
      rw [hss] at hss2
      cases hss2
      exact List.mem_append_left _ hs
    · exact List.mem_append_right _ (hmem b hbt ss2 hss2 s hs)

theorem resolveScopes_of_global (user : UserRecord) (ctx : ResourceContext) (S : List Scope)
    (h : Scope.global ∈ S) : resolveScopes user ctx S = .Allow .global := by
  unfold resolveScopes
  have hne : S ≠ [] := List.ne_nil_of_mem h
  simp [hne, h]

theorem global_of_resolveScopes (user : UserRecord) (ctx : ResourceContext) (S : List Scope)
    (h : resolveScopes user ctx S = .Allow .global) : Scope.global ∈ S := by
  unfold resolveScopes at h
  by_contra hg
  split_ifs at h <;> cases h

/-- C5 (amended): when every effective assignment of the user resolves to a
role, and the user holds, through an effective assignment of a role that is
active and within its bounds, an effective grant of key `k` with scope global,
`Evaluate` returns `Allow(global)` for `k` whatever the resource context. -/
theorem Evaluate_global_grant (user : UserRecord) (roleLookup : String → Option RoleRecord)
    (k : String) (ctx : ResourceContext) (asOf : Instant)
    (a : RoleAssignment) (role : RoleRecord) (g : PermissionGrant)
    (hres : ∀ b ∈ effectiveAssignments user asOf, (roleLookup b.role).isSome = true)
    (ha : a ∈ user.assignments)
    (haeff : isEffective a.revoked true a.validFrom a.validTill asOf = true)
    (hrole : roleLookup a.role = some role)
    (hroleeff : isEffective false role.isActive role.validFrom role.validTill asOf = true)
    (hg : g ∈ role.grants) (hkey : g.key = k) (hscope : g.scope = .global)
    (hgeff : isEffective g.revoked g.active g.validFrom g.validTill asOf = true) :
    Evaluate user roleLookup k ctx asOf = .ok (.Allow .global) := by
  obtain ⟨S, hS, hmem⟩ := collectScopes_resolved roleLookup k asOf _ hres
  have hain : a ∈ effectiveAssignments user asOf := List.mem_filter.2 ⟨ha, haeff⟩
  have hscopes : assignmentScopes roleLookup k asOf a =
      .ok ((role.grants.filter (fun g => g.key == k &&
        isEffective g.revoked g.active g.validFrom g.validTill asOf)).map (fun g => g.scope)) := by
    simp [assignmentScopes, hrole, hroleeff]
  have hglobal : Scope.global ∈ S := by
    apply hmem a hain _ hscopes
    rw [List.mem_map]
    exact ⟨g, List.mem_filter.2 ⟨hg, by simp [hkey, hgeff]⟩, hscope⟩
  simp [Evaluate, hS, resolveScopes_of_global user ctx S hglobal]

/-- C5 (amended) at the user of scenario D, for a resource of team `T2`. -/
theorem Evaluate_global_grant_witness :
    Evaluate scenarioDUser scenarioLookup "user.update" { teamId := some "T2" } 100 =
      .ok (.Allow .global) :=
  Evaluate_global_grant scenarioDUser scenarioLookup "user.update" { teamId := some "T2" } 100
    { role := "SUPERADMIN" } superadminRole { key := "user.update", scope := .global }
    (by decide) (by decide) (by decide) (by decide) (by decide) (by decide) rfl rfl
    (by decide)

/-- C5 (counterexample): `ghostUser` holds an effective global grant of
`user.update` through `SUPERADMIN`, but a second effective assignment refers
to a role the lookup cannot resolve, and `Evaluate` signals
`DataIntegrityError` instead of returning `Allow(global)`. -/
theorem Evaluate_fails_on_dangling_assignment :
    ({ role := "SUPERADMIN" } : RoleAssignment) ∈ ghostUser.assignments ∧
    isEffective false true none none 100 = true ∧
    scenarioLookup "SUPERADMIN" = some superadminRole ∧
    superadminRole.grants = [{ key := "user.update", scope := .global }] ∧
    Evaluate ghostUser scenarioLookup "user.update" { teamId := some "T2" } 100 =
      .error (.DataIntegrityError "GHOST") := by
  refine ⟨by decide, by decide, by decide, by decide, ?_⟩
  rfl

/-- C6: a user whom `Evaluate` allows with `Allow(global)` is still allowed
with `Allow(global)`, for the same key and any resource context, when one more
role assignment (for instance of a role holding a team-scope grant of the key)
is held at any position among the others; and whatever narrower scopes were
collected with it, a collected scope global resolves to `Allow(global)`. -/
theorem Evaluate_global_kept_with_more_roles (user : UserRecord)
    (roleLookup : String → Option RoleRecord) (k : String) (ctx : ResourceContext)
    (asOf : Instant) (l1 l2 : List RoleAssignment) (a : RoleAssignment) (role : RoleRecord)
    (hsplit : user.assignments = l1 ++ l2)
    (hglobal : Evaluate user roleLookup k ctx asOf = .ok (.Allow .global))
    (hrole : roleLookup a.role = some role) :
    Evaluate { user with assignments := l1 ++ a :: l2 } roleLookup k ctx asOf =
        .ok (.Allow .global) ∧
      ∀ S, Scope.global ∈ S → resolveScopes user ctx S = .Allow .global := by
  refine ⟨?_, fun S hS => resolveScopes_of_global user ctx S hS⟩
  obtain ⟨sa, hsa⟩ := assignmentScopes_resolved roleLookup k asOf a (by simp [hrole])
  simp only [Evaluate, effectiveAssignments, hsplit, List.filter_append,
    collectScopes_append] at hglobal ⊢
  cases h1 : collectScopes roleLookup k asOf
      (l1.filter (fun a => isEffective a.revoked true a.validFrom a.validTill asOf)) with
  | error e => simp [h1] at hglobal
  | ok s1 =>
    cases h2 : collectScopes roleLookup k asOf
        (l2.filter (fun a => isEffective a.revoked true a.validFrom a.validTill asOf)) with
    | error e => simp [h1, h2] at hglobal
    | ok s2 =>
      simp only [h1, h2, Except.ok.injEq] at hglobal
      have hg : Scope.global ∈ s1 ++ s2 := global_of_resolveScopes user ctx _ hglobal
      have hg2 : ∀ extra : List Scope, Scope.global ∈ s1 ++ (extra ++ s2) := by
        intro extra
        rcases List.mem_append.1 hg with h | h
        · exact List.mem_append_left _ h
        · exact List.mem_append_right _ (List.mem_append_right _ h)
      rw [List.filter_cons]
      by_cases he : isEffective a.revoked true a.validFrom a.validTill asOf = true
      · simp only [he, if_true, collectScopes, hsa, h2]
        rw [resolveScopes_of_global _ ctx _ (hg2 sa)]
      · have he2 : isEffective a.revoked true a.validFrom a.validTill asOf = false := by
          simpa using he
        simp only [he2, Bool.false_eq_true, if_false, h2]
        rw [resolveScopes_of_global _ ctx _ hg]

/-- C6 at scenario D: the user holding `SUPERADMIN` is allowed globally, and
still is, for a resource of team `T2`, once `EDITOR` is held as well. -/
theorem Evaluate_global_kept_with_more_roles_witness :
    Evaluate superadminUser scenarioLookup "user.update" { teamId := some "T2" } 100 =
      .ok (.Allow .global) ∧
    scenarioLookup "EDITOR" = some editorRole ∧
    Evaluate { superadminUser with assignments := [] ++ { role := "EDITOR" } ::
        [{ role := "SUPERADMIN" }] } scenarioLookup "user.update" { teamId := some "T2" } 100 =
        .ok (.Allow .global) ∧
      ∀ S, Scope.global ∈ S →
        resolveScopes superadminUser { teamId := some "T2" } S = .Allow .global :=
  ⟨rfl, by decide,
   Evaluate_global_kept_with_more_roles superadminUser scenarioLookup "user.update"
     { teamId := some "T2" } 100 [] [{ role := "SUPERADMIN" }] { role := "EDITOR" } editorRole
     rfl rfl (by decide)⟩

/-! ## C7: the assignment taken as current -/

/-- C7 (counterexample): the only assignment of `userWithExpiredRole` expired
at instant 0 and is not effective at instant 1, yet it is the one the code
takes: `getRoleName`, `openEditModal` and the team-members badge show its role. -/
theorem findUserRole_takes_expired :
    findUserRole userWithExpiredRole = some expiredAdmin ∧
    userRoleEffective expiredAdmin 1 = false ∧
    getRoleName userWithExpiredRole = "ADMIN" ∧
    (openEditModal userWithExpiredRole).roleId = "role-admin" ∧
    roleName userWithExpiredRole = some "ADMIN" ∧
    showsRoleBadge userWithExpiredRole = true := by
  decide

theorem find?_notRevoked_map_bounds (rs : List UserRole) (f g : UserRole → Option Instant) :
    (rs.map (fun r => { r with validFrom := f r, validTill := g r })).find?
        (fun r => r.revoked != some true)
      = (rs.find? (fun r => r.revoked != some true)).map
          (fun r => { r with validFrom := f r, validTill := g r }) := by
  induction rs with
  | nil => rfl
  | cons a t ih =>
    simp only [List.map_cons, List.find?_cons]
    cases h : (a.revoked != some true) with
    | true => simp
    | false => simpa using ih

theorem findUserRole_withBounds (user : User) (f g : UserRole → Option Instant) :
    findUserRole (withBounds user f g) =
      (findUserRole user).map (fun r => { r with validFrom := f r, validTill := g r }) := by
  unfold findUserRole withBounds
  cases h : user.roles with
  | none => rfl
  | some rs => exact find?_notRevoked_map_bounds rs f g

/-- C7 (amended): the assignment the code treats as current is the first entry
of `user.roles` that is not revoked (every entry before it is revoked), and it
gives the role that `getRoleName`, the team-members badge and `openEditModal`
show; when every entry is revoked no role is shown; and the validity bounds
are not consulted: replacing them changes none of the three results. -/
theorem findUserRole_first_not_revoked (user : User) :
    (∀ r, findUserRole user = some r →
      r.revoked ≠ some true ∧
      (∃ pre post, user.roles = some (pre ++ r :: post) ∧ ∀ q ∈ pre, q.revoked = some true) ∧
      getRoleName user = orElseString (r.role.bind (fun x => x.name)) "No Role" ∧
      roleName user = r.role.bind (fun x => x.name) ∧
      (openEditModal user).roleId = orElseString (r.role.bind (fun x => x._id)) "") ∧
    ((∀ rs, user.roles = some rs → ∀ q ∈ rs, q.revoked = some true) →
      getRoleName user = "No Role" ∧ roleName user = none ∧
      (openEditModal user).roleId = "") ∧
    (∀ f g, getRoleName (withBounds user f g) = getRoleName user ∧
      roleName (withBounds user f g) = roleName user ∧
      (openEditModal (withBounds user f g)).roleId = (openEditModal user).roleId) := by
  refine ⟨?_, ?_, ?_⟩
  · intro r hr
    have hr' := hr
    unfold findUserRole at hr'
    cases hrs : user.roles with
    | none => simp [hrs] at hr'
    | some rs =>
      simp only [hrs, Option.some_bind] at hr'
      have h1 := List.find?_some hr'
      obtain ⟨pre, post, hsplit, hpre⟩ := (List.find?_eq_some.1 hr').2
      refine ⟨by simpa using h1, ⟨pre, post, by rw [hsplit], ?_⟩, ?_, ?_, ?_⟩
      · intro q hq
        simpa using hpre q hq
      · simp [getRoleName, hr]
      · simp [roleName, hr]
      · simp [openEditModal, hr]
  · intro hall
    have hnone : findUserRole user = none := by
      unfold findUserRole
      cases hrs : user.roles with
      | none => rfl
      | some rs =>
        simp only [Option.some_bind, List.find?_eq_none]
        intro q hq
        simp [hall rs hrs q hq]
    simp [getRoleName, roleName, openEditModal, hnone, orElseString]
  · intro f g
    simp only [getRoleName, roleName, openEditModal, findUserRole_withBounds]
    cases findUserRole user <;> simp

/-! ## C8, C9, C10: unresolved roles, date order, failed updates -/

/-- C8 (counterexample): a user whose assignment has an unresolved role gets
the same `getRoleName`, `roleName` and badge as the same user without any
role; no error is raised. -/
theorem dangling_role_shown_as_no_role :
    findUserRole userWithDanglingRole = some { role := none, revoked := some false } ∧
    getRoleName userWithDanglingRole = "No Role" ∧
    getRoleName userWithNoRole = "No Role" ∧
    roleName userWithDanglingRole = roleName userWithNoRole ∧
    showsRoleBadge userWithDanglingRole = showsRoleBadge userWithNoRole := by
  decide

/-- C8 (amended): when the role of the current assignment is unresolved,
`getRoleName` returns `No Role` and the team-members list shows no badge,
the same results as for the user without any role assignment. -/
theorem getRoleName_unresolved_role (user : User) (r : UserRole)
    (hr : findUserRole user = some r) (hdangling : r.role = none) :
    getRoleName user = "No Role" ∧
    getRoleName user = getRoleName { user with roles := some [] } ∧
    roleName user = none ∧
    roleName user = roleName { user with roles := some [] } ∧
    showsRoleBadge user = false ∧
    showsRoleBadge user = showsRoleBadge { user with roles := some [] } := by
  have h0 : findUserRole { user with roles := some [] } = none := rfl
  simp [getRoleName, roleName, showsRoleBadge, hr, hdangling, h0, orElseString]

/-- C8 (amended) at the user `userWithDanglingRole`. -/
theorem getRoleName_unresolved_role_witness :
    getRoleName userWithDanglingRole = "No Role" ∧
    getRoleName userWithDanglingRole =
      getRoleName { userWithDanglingRole with roles := some [] } ∧
    roleName userWithDanglingRole = none ∧
    roleName userWithDanglingRole = roleName { userWithDanglingRole with roles := some [] } ∧
    showsRoleBadge userWithDanglingRole = false ∧
    showsRoleBadge userWithDanglingRole =
      showsRoleBadge { userWithDanglingRole with roles := some [] } :=
  getRoleName_unresolved_role userWithDanglingRole { role := none, revoked := some false }
    (by decide) rfl

/-- C9 (counterexample): setting `validFrom` to 2025-01-01 on a grant valid
till 2024-01-01, and creating a role valid from 2025-01-01 till 2024-01-01,
are both submitted although `validFrom` is later than `validTill`. -/
theorem date_order_not_checked :
    handlePermissionDateChange (some roleWithReadTill2024) "user.read" .validFrom "2025-01-01" =
      .submitted ("r4", [{ readTill2024 with validFrom := some 1735689600000 }]) ∧
    handleCreateRole asciiUpper backwardsNewRole 1700000000000 =
      .submitted { name := "EDITOR", description := "edits", permissions := [],
                   validFrom := 1735689600000, validTill := some 1704067200000 } ∧
    ¬ ((1735689600000 : Instant) ≤ 1704067200000) := by
  decide

/-- C9 (amended): neither handler checks the order of the bounds.
`handlePermissionDateChange` stores every empty or valid date value in the
given field of the entries of the key, leaving the other bound as it is, and
never ends with a validation message; `handleCreateRole` rejects a blank name
with `Role name is required` and otherwise submits the dates as entered
(`validFrom` defaulting to the current instant). -/
theorem dates_submitted_unchecked :
    (∀ (role : Role) (ps : List Permission) (k : String) (field : DateField) (value : String)
        (v : Option Instant),
      role.permissions = some ps → dateOrNull value = some v →
      handlePermissionDateChange (some role) k field value =
        .submitted (role._id,
          ps.map (fun p => if p.key = k then setDateField p field v else p))) ∧
    (∀ (selectedRole : Option Role) (k : String) (field : DateField) (value text : String),
      handlePermissionDateChange selectedRole k field value ≠ .rejected text) ∧
    (∀ (upper : CaseTable) (newRole : NewRole) (now : Instant),
      isBlank newRole.name = true →
      handleCreateRole upper newRole now = .rejected "Role name is required") ∧
    (∀ (upper : CaseTable) (newRole : NewRole) (now : Instant) (vt : Option Instant),
      isBlank newRole.name = false → dateOrNull newRole.validTill = some vt →
      (newRole.validFrom = "" →
        handleCreateRole upper newRole now = .submitted
          { name := toUpperCase upper newRole.name, description := newRole.description,
            permissions := newRole.permissions, validFrom := now, validTill := vt }) ∧
      (∀ vf, newDate newRole.validFrom = some vf → newRole.validFrom ≠ "" →
        handleCreateRole upper newRole now = .submitted
          { name := toUpperCase upper newRole.name, description := newRole.description,
            permissions := newRole.permissions, validFrom := vf, validTill := vt })) := by
  refine ⟨?_, ?_, ?_, ?_⟩
  · intro role ps k field value v hps hv
    simp only [handlePermissionDateChange, hps]
    rw [mapThrowing_date_some ps k field value v hv]
  · intro selectedRole k field value text
    unfold handlePermissionDateChange
    cases selectedRole with
    | none => simp
    | some role =>
      cases hps : role.permissions with
      | none => simp [hps]
      | some ps =>
        simp only [hps]
        cases mapThrowing (fun p => if p.key = k then
            (dateOrNull value).map (setDateField p field) else some p) ps <;> simp
  · intro upper newRole now hb
    simp [handleCreateRole, hb]
  · intro upper newRole now vt hb hvt
    constructor
    · intro hvf
      simp [handleCreateRole, hb, hvt, hvf]
    · intro vf hvf hne
      simp [handleCreateRole, hb, hvt, hvf, hne]

/-- C10: when the PATCH of `updateRolePermissions` fails, `roles` and
`selectedRole` are what they were before the call in every state the page
passes through, the message is the error `Failed to update permissions`, and
`saving` is reset. -/
theorem updateRolePermissions_failure_keeps_state (st : RolesPage) (roleId : String)
    (permissions : List Permission) :
    (∀ s ∈ updateRolePermissionsTrace st roleId permissions false,
      s.roles = st.roles ∧ s.selectedRole = st.selectedRole) ∧
    (updateRolePermissions st roleId permissions false).roles = st.roles ∧
    (updateRolePermissions st roleId permissions false).selectedRole = st.selectedRole ∧
    (updateRolePermissions st roleId permissions false).message =
      { type := "error", text := "Failed to update permissions" } ∧
    (updateRolePermissions st roleId permissions false).saving = false := by
  refine ⟨?_, rfl, rfl, rfl, rfl⟩
  intro s hs
  simp only [updateRolePermissionsTrace, List.mem_cons, List.mem_singleton, List.not_mem_nil,
    or_false] at hs
  rcases hs with h | h <;> subst h <;> exact ⟨rfl, rfl⟩

/-! ## C11, C19, C20: saving permissions, the catalog, the create-role selection -/

set_option maxRecDepth 100000 in
/-- C19: the 13 keys of `ALL_PERMISSIONS` are pairwise distinct and include
`user.create`, `role.update` and `audit.read`; the groups of
`groupedPermissions` have distinct categories, every catalog entry lies in a
group, only in the group of its own category, and each group is the catalog
filtered by its category, in catalog order. -/
theorem groupedPermissions_partitions_catalog :
    ALL_PERMISSIONS.length = 13 ∧
    (ALL_PERMISSIONS.map (fun p => p.key)).Nodup ∧
    "user.create" ∈ ALL_PERMISSIONS.map (fun p => p.key) ∧
    "role.update" ∈ ALL_PERMISSIONS.map (fun p => p.key) ∧
    "audit.read" ∈ ALL_PERMISSIONS.map (fun p => p.key) ∧
    (groupedPermissions.map (fun g => g.1)).Nodup ∧
    (∀ perm ∈ ALL_PERMISSIONS, ∃ g ∈ groupedPermissions, perm ∈ g.2) ∧
    (∀ perm ∈ ALL_PERMISSIONS, ∀ g ∈ groupedPermissions,
      perm ∈ g.2 → g.1 = perm.category) ∧
    (∀ perm ∈ ALL_PERMISSIONS,
      (groupedPermissions.filter
        (fun g => g.2.any (fun q => q.key == perm.key))).length = 1) ∧
    (∀ g ∈ groupedPermissions,
      g.2 = ALL_PERMISSIONS.filter (fun p => p.category == g.1)) := by
  decide

/-- C11: after a successful `updateRolePermissions` the role list has the
same length; at every position a role with the given id is the same role with
its permissions replaced by the submitted list, and any other role is
unchanged; `selectedRole` is that updated role (the first of that id); the
message reports success and `saving` is reset. -/
theorem updateRolePermissions_success_replaces_grants (st : RolesPage) (roleId : String)
    (permissions : List Permission) :
    (updateRolePermissions st roleId permissions true).roles.length = st.roles.length ∧
    (∀ (i : Nat) (r : Role), st.roles[i]? = some r →
      (r._id = roleId →
        (updateRolePermissions st roleId permissions true).roles[i]? =
          some { r with permissions := some permissions }) ∧
      (r._id ≠ roleId →
        (updateRolePermissions st roleId permissions true).roles[i]? = some r)) ∧
    (∀ r, st.roles.find? (fun q => q._id == roleId) = some r →
      (updateRolePermissions st roleId permissions true).selectedRole =
        some { r with permissions := some permissions }) ∧
    (updateRolePermissions st roleId permissions true).message =
      { type := "success", text := "Permissions updated successfully" } ∧
    (updateRolePermissions st roleId permissions true).saving = false := by
  refine ⟨by simp [updateRolePermissions], ?_, ?_, rfl, rfl⟩
  · intro i r hr
    constructor
    · intro hid
      simp [updateRolePermissions, List.getElem?_map, hr, hid]
    · intro hid
      simp [updateRolePermissions, List.getElem?_map, hr, hid]
  · intro r hr
    simp only [updateRolePermissions, if_true]
    have key : ∀ l : List Role, l.find? (fun q => q._id == roleId) = some r →
        (l.map (fun r => if r._id = roleId then { r with permissions := some permissions }
          else r)).find? (fun r => r._id == roleId) =
          some { r with permissions := some permissions } := by
      intro l
      induction l with
      | nil => intro h; simp at h
      | cons a t ih =>
        intro h
        by_cases ha : a._id = roleId
        · simp [List.find?_cons, ha] at h ⊢
          subst h
          simp [ha]
        · simp [List.find?_cons, ha] at h ⊢
          simpa using ih h
    exact key st.roles hr



theorem keys_nodup_toggle (newRole : NewRole) (k : String)
    (h : (newRole.permissions.map (fun p => p.key)).Nodup) :
    ((toggleNewRolePermission newRole k).permissions.map (fun p => p.key)).Nodup := by
  unfold toggleNewRolePermission
  cases hf : newRole.permissions.find? (fun p => p.key == k) with
  | some q =>
    simp only
    exact (List.Sublist.map _ (List.filter_sublist _)).nodup h
  | none =>
    simp only [List.map_append, List.map_cons, List.map_nil]
    rw [List.nodup_append]
    refine ⟨h, by simp, ?_⟩
    intro a ha hb
    simp only [List.mem_singleton] at hb
    subst hb
    obtain ⟨p, hp, hpk⟩ := List.mem_map.1 ha
    have := List.find?_eq_none.1 hf p hp
    simp [hpk] at this

theorem keys_nodup_toggles (keys : List String) (newRole : NewRole)
    (h : (newRole.permissions.map (fun p => p.key)).Nodup) :
    ((keys.foldl toggleNewRolePermission newRole).permissions.map (fun p => p.key)).Nodup := by
  induction keys generalizing newRole with
  | nil => exact h
  | cons k t ih => exact ih _ (keys_nodup_toggle newRole k h)

theorem oneEntryPerKey_of_keys_nodup (ps : List Permission)
    (h : (ps.map (fun p => p.key)).Nodup) : OneEntryPerKey ps := by
  intro k
  have h1 := List.nodup_iff_count_le_one.1 h k
  have h2 : ps.countP (fun p => p.key == k) = (ps.map (fun p => p.key)).count k := by
    rw [List.count, List.countP_map]
    rfl
  rw [h2]
  exact h1

theorem handleCreateRole_submitted (upper : CaseTable) (newRole : NewRole) (now : Instant)
    (payload : RolePayload) (h : handleCreateRole upper newRole now = .submitted payload) :
    isBlank newRole.name = false ∧ payload.name = toUpperCase upper newRole.name ∧
      payload.permissions = newRole.permissions := by
  unfold handleCreateRole at h
  cases hb : isBlank newRole.name with
  | true => simp [hb] at h
  | false =>
    simp only [hb, Bool.false_eq_true, if_false] at h
    cases hvf : (if newRole.validFrom = "" then some now else newDate newRole.validFrom) with
    | none => simp [hvf] at h
    | some vf =>
      cases hvt : dateOrNull newRole.validTill with
      | none => simp [hvf, hvt] at h
      | some vt =>
        simp only [hvf, hvt, Handled.submitted.injEq] at h
        subst h
        exact ⟨rfl, rfl, rfl⟩

/-- C20: after any sequence of `toggleNewRolePermission` calls from the empty
form, the keys of `newRole.permissions` are pairwise distinct, the list holds
at most one entry per key, and whatever the other fields of the form, the
permissions that `handleCreateRole` submits are that list. -/
theorem toggleNewRolePermission_keys_distinct (keys : List String) :
    ((keys.foldl toggleNewRolePermission emptyNewRole).permissions.map
        (fun p => p.key)).Nodup ∧
    OneEntryPerKey (keys.foldl toggleNewRolePermission emptyNewRole).permissions ∧
    (∀ (upper : CaseTable) (form : NewRole) (now : Instant) (payload : RolePayload),
      form.permissions = (keys.foldl toggleNewRolePermission emptyNewRole).permissions →
      handleCreateRole upper form now = .submitted payload →
      payload.permissions = form.permissions ∧ OneEntryPerKey payload.permissions) := by
  have h := keys_nodup_toggles keys emptyNewRole (by simp [emptyNewRole])
  refine ⟨h, oneEntryPerKey_of_keys_nodup _ h, ?_⟩
  intro upper form now payload hform hsub
  have hp : payload.permissions = form.permissions :=
    (handleCreateRole_submitted upper form now payload hsub).2.2
  refine ⟨hp, ?_⟩
  rw [hp, hform]
  exact oneEntryPerKey_of_keys_nodup _ h

/-! ## C12, C13, C14: duplicate names, teams in use, name normalization -/

theorem asciiUpper_stable (c : Char) : (asciiUpper c).flatMap asciiUpper = asciiUpper c := by
  simp only [asciiUpper, List.flatMap_cons, List.flatMap_nil, List.append_nil, List.cons.injEq,
    and_true]
  unfold Char.toUpper
  simp only
  by_cases h : c.toNat ≥ 97 ∧ c.toNat ≤ 122
  · simp only [h, and_self, if_true]
    obtain ⟨h1, h2⟩ := h
    generalize c.toNat = n at h1 h2
    interval_cases n <;> rfl
  · simp only [h, if_false]

theorem flatMap_eq_self_of_fixed (upper : CaseTable) (l : List Char)
    (h : ∀ c ∈ l, upper c = [c]) : l.flatMap upper = l := by
  induction l with
  | nil => rfl
  | cons a t ih =>
    simp only [List.flatMap_cons, h a (List.mem_cons_self _ _), List.singleton_append,
      List.cons.injEq, true_and]
    exact ih (fun c hc => h c (List.mem_cons_of_mem _ hc))

theorem flatMap_eq_of_forall₂ (upper : CaseTable) (a b : List Char)
    (h : List.Forall₂ (fun c d => upper c = upper d) a b) :
    a.flatMap upper = b.flatMap upper := by
  induction h with
  | nil => rfl
  | cons hcd _ ih => simp only [List.flatMap_cons, hcd, ih]

theorem flatMap_flatMap_stable (upper : CaseTable) (l : List Char)
    (h : ∀ c, (upper c).flatMap upper = upper c) :
    (l.flatMap upper).flatMap upper = l.flatMap upper := by
  induction l with
  | nil => rfl
  | cons a t ih => simp only [List.flatMap_cons, List.flatMap_append, h a, ih]

/-- C14: for a form that `handleCreateRole` accepts, the submitted name is
the upper-cased input; a form whose name differs only in letter case submits
the same name; a name whose characters are all their own uppercase is
submitted unchanged; and, the case table fixing its own images, upper-casing
the submitted name again gives the same name. -/
theorem handleCreateRole_name_normalized (upper : CaseTable) (newRole : NewRole)
    (now : Instant) (payload : RolePayload)
    (h : handleCreateRole upper newRole now = .submitted payload) :
    payload.name = toUpperCase upper newRole.name ∧
    (∀ (other : NewRole) (now2 : Instant) (payload2 : RolePayload),
      SameUpToCase upper newRole.name other.name →
      handleCreateRole upper other now2 = .submitted payload2 →
      payload2.name = payload.name) ∧
    ((∀ c ∈ newRole.name.toList, upper c = [c]) → payload.name = newRole.name) ∧
    ((∀ c, (upper c).flatMap upper = upper c) →
      toUpperCase upper payload.name = payload.name) := by
  have hn := (handleCreateRole_submitted upper newRole now payload h).2.1
  refine ⟨hn, ?_, ?_, ?_⟩
  · intro other now2 payload2 hsame h2
    rw [hn, (handleCreateRole_submitted upper other now2 payload2 h2).2.1]
    unfold toUpperCase
    rw [flatMap_eq_of_forall₂ upper _ _ hsame]
  · intro hfixed
    rw [hn]
    unfold toUpperCase
    rw [flatMap_eq_self_of_fixed upper _ hfixed]
    rfl
  · intro hstable
    rw [hn]
    show String.mk ((newRole.name.toList.flatMap upper).flatMap upper) =
      String.mk (newRole.name.toList.flatMap upper)
    rw [flatMap_flatMap_stable upper _ hstable]

/-- C14 at the form with the name `editor` and the ASCII case table, which
fixes its own images. -/
theorem handleCreateRole_name_normalized_witness :
    (∀ c, (asciiUpper c).flatMap asciiUpper = asciiUpper c) ∧
    handleCreateRole asciiUpper duplicateCreatePage.newRole 1700000000000 =
      .submitted { name := "EDITOR", description := "second editor", permissions := [],
                   validFrom := 1700000000000, validTill := none } ∧
    ("EDITOR" = toUpperCase asciiUpper "editor" ∧
      (∀ (other : NewRole) (now2 : Instant) (payload2 : RolePayload),
        SameUpToCase asciiUpper "editor" other.name →
        handleCreateRole asciiUpper other now2 = .submitted payload2 →
        payload2.name = "EDITOR") ∧
      ((∀ c ∈ "editor".toList, asciiUpper c = [c]) → "EDITOR" = "editor") ∧
      ((∀ c, (asciiUpper c).flatMap asciiUpper = asciiUpper c) →
        toUpperCase asciiUpper "EDITOR" = "EDITOR")) :=
  ⟨asciiUpper_stable, by decide,
   handleCreateRole_name_normalized asciiUpper duplicateCreatePage.newRole 1700000000000
     { name := "EDITOR", description := "second editor", permissions := [],
       validFrom := 1700000000000, validTill := none } (by decide)⟩

/-- C12 (counterexample): the page holds a role `EDITOR` and the form the name
`editor`, yet `handleCreateRole` posts the name `EDITOR`, and when the POST is
fulfilled the handler reports success. -/
theorem handleCreateRole_posts_duplicate_name :
    (∃ r ∈ duplicateCreatePage.roles,
      r.name = toUpperCase asciiUpper duplicateCreatePage.newRole.name) ∧
    handleCreateRole asciiUpper duplicateCreatePage.newRole 1700000000000 =
      .submitted { name := "EDITOR", description := "second editor", permissions := [],
                   validFrom := 1700000000000, validTill := none } ∧
    (handleCreateRoleRun asciiUpper duplicateCreatePage 1700000000000 .fulfilled).message =
      { type := "success", text := "Role created successfully" } := by
  refine ⟨⟨existingEditor, by decide, by decide⟩, by decide, by decide⟩

/-- C12 (amended): for a form that `handleCreateRole` accepts, the handler
fails exactly when the POST is rejected: it then shows the server's message,
or `Failed to create role`, and leaves roles, form and modal as they were;
when the POST is fulfilled it reports success and resets the form; neither
outcome depends on the roles the page holds. -/
theorem handleCreateRoleRun_fails_only_on_rejection (upper : CaseTable) (st : CreateRolePage)
    (now : Instant) (payload : RolePayload)
    (h : handleCreateRole upper st.newRole now = .submitted payload) :
    (∀ m, handleCreateRoleRun upper st now (.failed m) =
      { st with
        message := { type := "error", text := orElseString m "Failed to create role" }
        saving := false }) ∧
    handleCreateRoleRun upper st now .fulfilled =
      { st with
        message := { type := "success", text := "Role created successfully" }
        showCreateModal := false
        newRole := emptyNewRole
        loading := true
        saving := false } ∧
    (∀ (roles : List Role) (post : Response),
      handleCreateRoleRun upper { st with roles := roles } now post =
        { handleCreateRoleRun upper st now post with roles := roles }) := by
  have hb := (handleCreateRole_submitted upper st.newRole now payload h).1
  refine ⟨?_, ?_, ?_⟩
  · intro m
    simp [handleCreateRoleRun, hb, h]
  · simp [handleCreateRoleRun, hb, h]
  · intro roles post
    cases post <;> simp [handleCreateRoleRun, hb, h]

/-- C12 (amended) at the page `duplicateCreatePage`. -/
theorem handleCreateRoleRun_fails_only_on_rejection_witness :
    (∀ m, handleCreateRoleRun asciiUpper duplicateCreatePage 1700000000000 (.failed m) =
      { duplicateCreatePage with
        message := { type := "error", text := orElseString m "Failed to create role" }
        saving := false }) ∧
    handleCreateRoleRun asciiUpper duplicateCreatePage 1700000000000 .fulfilled =
      { duplicateCreatePage with
        message := { type := "success", text := "Role created successfully" }
        showCreateModal := false
        newRole := emptyNewRole
        loading := true
        saving := false } ∧
    (∀ (roles : List Role) (post : Response),
      handleCreateRoleRun asciiUpper { duplicateCreatePage with roles := roles }
          1700000000000 post =
        { handleCreateRoleRun asciiUpper duplicateCreatePage 1700000000000 post with
          roles := roles }) :=
  handleCreateRoleRun_fails_only_on_rejection asciiUpper duplicateCreatePage 1700000000000
    { name := "EDITOR", description := "second editor", permissions := [],
      validFrom := 1700000000000, validTill := none } (by decide)

/-- C13 (counterexample): `memberOfT1` references the team `T1`, yet
`handleDelete` sends the DELETE for `T1`, and when the DELETE is fulfilled the
handler reports success. -/
theorem handleDelete_sends_for_team_in_use :
    Team.getTeamMembers deleteT1Page.users "t1" = [memberOfT1] ∧
    Team.handleDeleteRequest deleteT1Page = .submitted "t1" ∧
    (Team.handleDelete deleteT1Page .fulfilled).message =
      { type := "success", text := "Team deleted successfully" } := by
  decide

/-- C13 (amended): `handleDelete` sends the DELETE for the selected team
whatever users reference it; when the DELETE is rejected it shows the server's
message, or `Failed to delete team`, and the team list, the users and the
members of every team are unchanged. -/
theorem handleDelete_rejected_keeps_state (st : TeamPage) (team : TeamDoc)
    (hsel : st.selectedTeam = some team) :
    Team.handleDeleteRequest st = .submitted team._id ∧
    (∀ m, Team.handleDelete st (.failed m) =
      { st with
        message := { type := "error", text := orElseString m "Failed to delete team" }
        actionLoading := false }) ∧
    (∀ m, (Team.handleDelete st (.failed m)).teams = st.teams ∧
      (Team.handleDelete st (.failed m)).users = st.users ∧
      ∀ teamId, Team.getTeamMembers (Team.handleDelete st (.failed m)).users teamId =
        Team.getTeamMembers st.users teamId) := by
  refine ⟨by simp [Team.handleDeleteRequest, hsel], ?_, ?_⟩
  · intro m
    simp [Team.handleDelete, hsel]
  · intro m
    simp [Team.handleDelete, hsel]

/-- C13 (amended) at the page `deleteT1Page`. -/
theorem handleDelete_rejected_keeps_state_witness :
    Team.handleDeleteRequest deleteT1Page = .submitted teamT1._id ∧
    (∀ m, Team.handleDelete deleteT1Page (.failed m) =
      { deleteT1Page with
        message := { type := "error", text := orElseString m "Failed to delete team" }
        actionLoading := false }) ∧
    (∀ m, (Team.handleDelete deleteT1Page (.failed m)).teams = deleteT1Page.teams ∧
      (Team.handleDelete deleteT1Page (.failed m)).users = deleteT1Page.users ∧
      ∀ teamId, Team.getTeamMembers (Team.handleDelete deleteT1Page (.failed m)).users teamId =
        Team.getTeamMembers deleteT1Page.users teamId) :=
  handleDelete_rejected_keeps_state deleteT1Page teamT1 rfl

/-! ## C15 to C18: login, logout and the session in storage -/

theorem find?_map_replace (ls : Storage) (k v k2 : String) :
    (ls.map (fun e => if e.1 == k then (k, v) else e)).find? (fun e => e.1 == k2) =
      (ls.find? (fun e => e.1 == k2)).map (fun e => if e.1 == k then (k, v) else e) := by
  induction ls with
  | nil => rfl
  | cons a t ih =>
    rw [List.map_cons]
    by_cases hak : a.1 = k
    · have hfa : (if a.1 == k then (k, v) else a) = (k, v) := by simp [hak]
      rw [hfa]
      by_cases hk : k = k2
      · rw [List.find?_cons_of_pos _ (by simp [hk]),
          List.find?_cons_of_pos _ (by simp [hak, hk])]
        simp [hak]
      · rw [List.find?_cons_of_neg _ (by simpa using hk),
          List.find?_cons_of_neg _ (by simpa [hak] using hk), ih]
    · have hfa : (if a.1 == k then (k, v) else a) = a := by simp [hak]
      rw [hfa]
      by_cases ha2 : a.1 = k2
      · rw [List.find?_cons_of_pos _ (by simp [ha2]), List.find?_cons_of_pos _ (by simp [ha2])]
        simp [hak]
      · rw [List.find?_cons_of_neg _ (by simpa using ha2),
          List.find?_cons_of_neg _ (by simpa using ha2), ih]

theorem getItem_setItem (ls : Storage) (k v k2 : String) :
    getItem (setItem ls k v) k2 = if k2 = k then some v else getItem ls k2 := by
  unfold getItem setItem
  by_cases hany : ls.any (fun e => e.1 == k) = true
  · rw [if_pos hany, find?_map_replace]
    by_cases hk : k2 = k
    · subst hk
      obtain ⟨e, he, hek⟩ := List.any_eq_true.1 hany
      cases hf : ls.find? (fun e => e.1 == k2) with
      | none =>
        have := List.find?_eq_none.1 hf e he
        exact absurd hek this
      | some q =>
        have := List.find?_some hf
        simp at this
        simp [this]
    · rw [if_neg hk]
      cases hf : ls.find? (fun e => e.1 == k2) with
      | none => rfl
      | some q =>
        have := List.find?_some hf
        simp at this
        have hq : ¬ q.1 = k := fun h => hk (this ▸ h)
        simp [hq]
  · rw [if_neg hany, List.find?_append]
    have hnone : ls.find? (fun e => e.1 == k) = none := by
      rw [List.find?_eq_none]
      intro e he hek
      exact hany (List.any_eq_true.2 ⟨e, he, hek⟩)
    by_cases hk : k2 = k
    · subst hk
      rw [hnone, if_pos rfl, List.find?_cons_of_pos _ (by simp)]
      rfl
    · rw [if_neg hk, List.find?_cons_of_neg _ (by simpa using fun h => hk h.symm)]
      cases ls.find? (fun e => e.1 == k2) <;> rfl

theorem getItem_removeItem (ls : Storage) (k k2 : String) :
    getItem (removeItem ls k) k2 = if k2 = k then none else getItem ls k2 := by
  unfold getItem removeItem
  induction ls with
  | nil => simp
  | cons a t ih =>
    by_cases hak : a.1 = k
    · rw [List.filter_cons_of_neg (by simp [hak]), ih]
      by_cases hk : k2 = k
      · rw [if_pos hk, if_pos hk]
      · rw [if_neg hk, if_neg hk,
          List.find?_cons_of_neg _ (by simpa [hak] using fun h => hk h.symm)]
    · rw [List.filter_cons_of_pos (by simpa using hak)]
      by_cases ha2 : a.1 = k2
      · have hk : ¬ k2 = k := fun h => hak (ha2.trans h)
        rw [List.find?_cons_of_pos _ (by simp [ha2]), if_neg hk,
          List.find?_cons_of_pos _ (by simp [ha2])]
      · rw [List.find?_cons_of_neg _ (by simpa using ha2), ih,
          List.find?_cons_of_neg _ (by simpa using ha2)]


/-- C15: for a form that passes the checks and an authentication result,
both login pages write the token and the user to storage and navigate when
`result.success` is true; otherwise storage is unchanged, nothing is navigated
to, and the error is `result.message`, or `Login failed` without a message. -/
theorem handleSubmit_stores_iff_success (st : LoginState) (formData : LoginForm)
    (r : AuthResult) (now : Nat)
    (hemail : formData.email ≠ "") (hpassword : formData.password ≠ "")
    (hvalid : emailRegexTest formData.email = true) :
    (r.success = some true →
      getItem (Login.handleSubmit st formData (.result r) now).storage "token" =
        some (storedText r.token) ∧
      getItem (Login.handleSubmit st formData (.result r) now).storage "user" =
        some (storedText r.user) ∧
      (Login.handleSubmit st formData (.result r) now).navigatedTo = some "/dashboard" ∧
      getItem (AdminLogin.handleSubmit st formData (.result r) now).storage "token" =
        some (storedText r.token) ∧
      getItem (AdminLogin.handleSubmit st formData (.result r) now).storage "adminToken" =
        some (storedText r.token) ∧
      getItem (AdminLogin.handleSubmit st formData (.result r) now).storage "user" =
        some (storedText r.user) ∧
      getItem (AdminLogin.handleSubmit st formData (.result r) now).storage "adminUser" =
        some (storedText r.user) ∧
      (AdminLogin.handleSubmit st formData (.result r) now).navigatedTo =
        some "/admin/dashboard") ∧
    (r.success ≠ some true →
      (Login.handleSubmit st formData (.result r) now).storage = st.storage ∧
      (Login.handleSubmit st formData (.result r) now).navigatedTo = st.navigatedTo ∧
      (Login.handleSubmit st formData (.result r) now).error =
        orElseString r.message "Login failed" ∧
      (AdminLogin.handleSubmit st formData (.result r) now).storage = st.storage ∧
      (AdminLogin.handleSubmit st formData (.result r) now).navigatedTo = st.navigatedTo ∧
      (AdminLogin.handleSubmit st formData (.result r) now).error =
        orElseString r.message "Login failed") := by
  constructor
  · intro hs
    cases hrem : formData.rememberMe <;>
      simp [Login.handleSubmit, AdminLogin.handleSubmit, hemail, hpassword, hvalid, hs, hrem,
        getItem_setItem, getItem_removeItem]
  · intro hs
    simp [Login.handleSubmit, AdminLogin.handleSubmit, hemail, hpassword, hvalid, hs]

/-- C16: for a response with status 401 or 403, both login pages leave
storage unchanged, navigate nowhere, set a non-empty error and reset
`loading`; for a form that passes the checks the error is the denial message
of that status. -/
theorem handleSubmit_denied_on_401_403 (st : LoginState) (formData : LoginForm)
    (status : Nat) (message error : Option String) (now : Nat)
    (hstatus : status = 401 ∨ status = 403) :
    (Login.handleSubmit st formData (.httpError status message error) now).storage =
      st.storage ∧
    (Login.handleSubmit st formData (.httpError status message error) now).navigatedTo =
      st.navigatedTo ∧
    (Login.handleSubmit st formData (.httpError status message error) now).error ≠ "" ∧
    (Login.handleSubmit st formData (.httpError status message error) now).loading = false ∧
    (AdminLogin.handleSubmit st formData (.httpError status message error) now).storage =
      st.storage ∧
    (AdminLogin.handleSubmit st formData (.httpError status message error) now).navigatedTo =
      st.navigatedTo ∧
    (AdminLogin.handleSubmit st formData (.httpError status message error) now).error ≠ "" ∧
    (AdminLogin.handleSubmit st formData (.httpError status message error) now).loading =
      false ∧
    (formData.email ≠ "" → formData.password ≠ "" → emailRegexTest formData.email = true →
      (Login.handleSubmit st formData (.httpError status message error) now).error =
        (if status = 401 then "Invalid credentials. Please try again."
         else "Access denied. Please contact administrator.") ∧
      (AdminLogin.handleSubmit st formData (.httpError status message error) now).error =
        (if status = 401 then "Invalid credentials. Please try again."
         else "Access denied. You do not have admin privileges.")) := by
  have h401 : ("Invalid credentials. Please try again." : String) ≠ "" := by decide
  have h403 : ("Access denied. Please contact administrator." : String) ≠ "" := by decide
  have h403a : ("Access denied. You do not have admin privileges." : String) ≠ "" := by decide
  have hfill : ("Please fill in all fields" : String) ≠ "" := by decide
  have hmail : ("Please enter a valid email address" : String) ≠ "" := by decide
  unfold Login.handleSubmit AdminLogin.handleSubmit Login.statusMessage AdminLogin.statusMessage
  by_cases h1 : formData.email = "" ∨ formData.password = ""
  · simp only [h1, if_true]
    refine ⟨trivial, trivial, hfill, trivial, trivial, trivial, hfill, trivial, ?_⟩
    intro he hp
    rcases h1 with h | h
    · exact absurd h he
    · exact absurd h hp
  · simp only [h1, if_false]
    by_cases h2 : emailRegexTest formData.email = false
    · simp only [h2, if_true]
      refine ⟨trivial, trivial, hmail, trivial, trivial, trivial, hmail, trivial, ?_⟩
      intro _ _ hv
      exact Bool.noConfusion hv
    · simp only [h2, if_false]
      rcases hstatus with h | h <;> subst h <;> simp [h401, h403, h403a]


/-- C15 at the form `userForm` and the result `userResult` on a fresh page. -/
theorem handleSubmit_stores_iff_success_witness :
    getItem (Login.handleSubmit freshLogin userForm (.result userResult) 1700000000000).storage
        "token" = some (storedText userResult.token) ∧
      getItem (Login.handleSubmit freshLogin userForm (.result userResult)
        1700000000000).storage "user" = some (storedText userResult.user) ∧
      (Login.handleSubmit freshLogin userForm (.result userResult) 1700000000000).navigatedTo =
        some "/dashboard" ∧
      getItem (AdminLogin.handleSubmit freshLogin userForm (.result userResult)
        1700000000000).storage "token" = some (storedText userResult.token) ∧
      getItem (AdminLogin.handleSubmit freshLogin userForm (.result userResult)
        1700000000000).storage "adminToken" = some (storedText userResult.token) ∧
      getItem (AdminLogin.handleSubmit freshLogin userForm (.result userResult)
        1700000000000).storage "user" = some (storedText userResult.user) ∧
      getItem (AdminLogin.handleSubmit freshLogin userForm (.result userResult)
        1700000000000).storage "adminUser" = some (storedText userResult.user) ∧
      (AdminLogin.handleSubmit freshLogin userForm (.result userResult)
        1700000000000).navigatedTo = some "/admin/dashboard" :=
  (handleSubmit_stores_iff_success freshLogin userForm userResult 1700000000000
    (by decide) (by decide) (by decide)).1 rfl

/-- C16 at status 403 for the form `adminForm` on a fresh page. -/
theorem handleSubmit_denied_on_401_403_witness :
    (Login.handleSubmit freshLogin adminForm (.httpError 403 none none) 1700000000000).storage =
      freshLogin.storage ∧
    (Login.handleSubmit freshLogin adminForm (.httpError 403 none none)
      1700000000000).navigatedTo = freshLogin.navigatedTo ∧
    (Login.handleSubmit freshLogin adminForm (.httpError 403 none none) 1700000000000).error ≠
      "" ∧
    (Login.handleSubmit freshLogin adminForm (.httpError 403 none none)
      1700000000000).loading = false :=
  have h := handleSubmit_denied_on_401_403 freshLogin adminForm 403 none none 1700000000000
    (Or.inr rfl)
  ⟨h.1, h.2.1, h.2.2.1, h.2.2.2.1⟩

/-- C17 (evaluation at the failing input): after a successful admin login,
`handleLogout` removes `token` only: `adminToken`, `user` and `adminUser`
remain and `getAuthHeaders` of the users page still sends the token; after a
successful user login, `user` remains. -/
theorem handleLogout_keeps_admin_session :
    getItem storageAfterAdminLogin "token" = some "A" ∧
    getItem (AdminLayout.handleLogout storageAfterAdminLogin).1 "token" = none ∧
    getItem (AdminLayout.handleLogout storageAfterAdminLogin).1 "adminToken" = some "A" ∧
    getItem (AdminLayout.handleLogout storageAfterAdminLogin).1 "user" =
      adminResult.user ∧
    getItem (AdminLayout.handleLogout storageAfterAdminLogin).1 "adminUser" =
      adminResult.user ∧
    Users.getAuthHeaders (AdminLayout.handleLogout storageAfterAdminLogin).1 = "Bearer A" ∧
    getItem (AdminLayout.handleLogout storageAfterUserLogin).1 "token" = none ∧
    getItem (AdminLayout.handleLogout storageAfterUserLogin).1 "user" = userResult.user := by
  decide

/-- C18 (evaluation at the failing input): after an admin login with token `A`
followed by a user login with token `B`, the users, roles and team pages send
`Bearer A` while the audit-logs page and the dashboard send `Bearer B`. -/
theorem getAuthHeaders_disagree :
    getItem storageAfterBothLogins "token" = some "B" ∧
    getItem storageAfterBothLogins "adminToken" = some "A" ∧
    Users.getAuthHeaders storageAfterBothLogins = "Bearer A" ∧
    Roles.getAuthHeaders storageAfterBothLogins = "Bearer A" ∧
    Team.getAuthHeaders storageAfterBothLogins = "Bearer A" ∧
    AuditLogs.getAuthHeaders storageAfterBothLogins = "Bearer B" ∧
    Dashboard.getAuthHeaders storageAfterBothLogins = "Bearer B" := by
  decide

/-! ## C21, C22, C25: toggling on, changing a scope, toggling twice -/

theorem active_after_toggle_on (role : Role) (ps : List Permission) (k : String) :
    (getPermissionStatus
      { role with
        permissions := some (ps ++ [{ key := k, scope := some "global", isActive := some true,
                                      revoked := some false }]) } k).active = true := by
  rw [getPermissionStatus_active_iff]
  refine ⟨_, rfl, _, List.mem_append_right _ (List.mem_singleton_self _), ?_⟩
  rw [isActiveEntry_new]
  simp

/-- C21: for a key `k` that `getPermissionStatus` reports inactive,
`handlePermissionToggle` submits the role's permissions with one entry
appended at the end: key `k`, scope `global`, `isActive` true, `revoked` false
and no bounds, a grant that is effective at every instant and that makes
`getPermissionStatus` report `k` active. -/
theorem handlePermissionToggle_inactive_appends_grant (role : Role) (ps : List Permission)
    (k : String) (hps : role.permissions = some ps)
    (hinactive : (getPermissionStatus role k).active = false) :
    ∃ e : Permission, handlePermissionToggle (some role) k = .submitted (role._id, ps ++ [e]) ∧
      e.key = k ∧ e.scope = some "global" ∧ e.isActive = some true ∧
      e.revoked = some false ∧ e.validFrom = none ∧ e.validTill = none ∧
      (∀ asOf, permissionEffective e asOf = true) ∧
      (getPermissionStatus { role with permissions := some (ps ++ [e]) } k).active = true := by
  refine ⟨_, toggle_inactive role ps k hps hinactive, rfl, rfl, rfl, rfl, rfl, rfl, ?_, ?_⟩
  · intro asOf
    rfl
  · exact active_after_toggle_on role ps k

/-- C21 at the role `roleWithRevokedRead` and the key `user.read`. -/
theorem handlePermissionToggle_inactive_appends_grant_witness :
    (getPermissionStatus roleWithRevokedRead "user.read").active = false ∧
    ∃ e : Permission, handlePermissionToggle (some roleWithRevokedRead) "user.read" =
        .submitted (roleWithRevokedRead._id, [revokedRead] ++ [e]) ∧
      e.key = "user.read" ∧ e.scope = some "global" ∧ e.isActive = some true ∧
      e.revoked = some false ∧ e.validFrom = none ∧ e.validTill = none ∧
      (∀ asOf, permissionEffective e asOf = true) ∧
      (getPermissionStatus
        { roleWithRevokedRead with permissions := some ([revokedRead] ++ [e]) }
        "user.read").active = true :=
  ⟨by decide,
   handlePermissionToggle_inactive_appends_grant roleWithRevokedRead [revokedRead] "user.read"
     rfl (by decide)⟩

/-- C22: `handleScopeChange` submits a list of the same length in which, at
every position, an entry of key `k` is the same entry with scope `s` and any
other entry is unchanged; when no entry has key `k` the list is submitted
unchanged. -/
theorem handleScopeChange_sets_scope_of_key (role : Role) (ps : List Permission)
    (k s : String) (hps : role.permissions = some ps) :
    ∃ out, handleScopeChange (some role) k s = .submitted (role._id, out) ∧
      out.length = ps.length ∧
      (∀ (i : Nat) (p : Permission), ps[i]? = some p →
        (p.key = k → out[i]? = some { p with scope := some s }) ∧
        (p.key ≠ k → out[i]? = some p)) ∧
      ((∀ p ∈ ps, p.key ≠ k) → out = ps) := by
  refine ⟨ps.map (fun p => if p.key = k then { p with scope := some s } else p),
    by simp [handleScopeChange, hps], by simp, ?_, ?_⟩
  · intro i p hp
    constructor
    · intro hk
      simp [List.getElem?_map, hp, hk]
    · intro hk
      simp [List.getElem?_map, hp, hk]
  · intro hno
    conv_rhs => rw [← List.map_id ps]
    apply List.map_congr_left
    intro p hp
    simp [hno p hp]

/-- C22 at the role `roleWithLiveRead`, the key `user.read` and the scope `team`. -/
theorem handleScopeChange_sets_scope_of_key_witness :
    ∃ out, handleScopeChange (some roleWithLiveRead) "user.read" "team" =
        .submitted (roleWithLiveRead._id, out) ∧
      out.length = [freshRead, liveTeamRead, revokedRead].length ∧
      (∀ (i : Nat) (p : Permission), [freshRead, liveTeamRead, revokedRead][i]? = some p →
        (p.key = "user.read" → out[i]? = some { p with scope := some "team" }) ∧
        (p.key ≠ "user.read" → out[i]? = some p)) ∧
      ((∀ p ∈ [freshRead, liveTeamRead, revokedRead], p.key ≠ "user.read") →
        out = [freshRead, liveTeamRead, revokedRead]) :=
  handleScopeChange_sets_scope_of_key roleWithLiveRead [freshRead, liveTeamRead, revokedRead]
    "user.read" "team" rfl

/-- C25 (counterexample): `user.read` is inactive for `roleWithRevokedRead`,
whose list is `[revokedRead]`; toggling it on and then off submits the empty
list, not the original one. -/
theorem toggle_twice_drops_revoked_entry :
    (getPermissionStatus roleWithRevokedRead "user.read").active = false ∧
    roleWithRevokedRead.permissions = some [revokedRead] ∧
    handlePermissionToggle (some roleWithRevokedRead) "user.read" =
      .submitted ("r1", [revokedRead, freshRead]) ∧
    handlePermissionToggle
        (some { roleWithRevokedRead with permissions := some [revokedRead, freshRead] })
        "user.read" = .submitted ("r1", []) ∧
    ([] : List Permission) ≠ [revokedRead] := by
  decide

/-- C25 (amended): toggling an inactive key `k` on and then off submits the
original list without its entries of key `k`; that is the original list
exactly when the role held no entry of key `k`. -/
theorem toggle_twice_removes_key (role : Role) (ps : List Permission) (k : String)
    (hps : role.permissions = some ps)
    (hinactive : (getPermissionStatus role k).active = false) :
    ∃ out1, handlePermissionToggle (some role) k = .submitted (role._id, out1) ∧
      handlePermissionToggle (some { role with permissions := some out1 }) k =
        .submitted (role._id, ps.filter (fun p => p.key != k)) ∧
      (ps.filter (fun p => p.key != k) = ps ↔ ∀ p ∈ ps, p.key ≠ k) := by
  refine ⟨_, toggle_inactive role ps k hps hinactive, ?_, ?_⟩
  · rw [toggle_active _ _ k rfl (active_after_toggle_on role ps k)]
    simp [List.filter_append]
  · rw [List.filter_eq_self]
    constructor
    · intro h p hp
      simpa using h p hp
    · intro h p hp
      simpa using h p hp

/-- C25 (amended) at the role `roleWithRevokedRead` and the key `role.read`. -/
theorem toggle_twice_removes_key_witness :
    (getPermissionStatus roleWithRevokedRead "role.read").active = false ∧
    ∃ out1, handlePermissionToggle (some roleWithRevokedRead) "role.read" =
        .submitted (roleWithRevokedRead._id, out1) ∧
      handlePermissionToggle (some { roleWithRevokedRead with permissions := some out1 })
          "role.read" =
        .submitted (roleWithRevokedRead._id,
          [revokedRead].filter (fun p => p.key != "role.read")) ∧
      ([revokedRead].filter (fun p => p.key != "role.read") = [revokedRead] ↔
        ∀ p ∈ [revokedRead], p.key ≠ "role.read") :=
  ⟨by decide,
   toggle_twice_removes_key roleWithRevokedRead [revokedRead] "role.read" rfl (by decide)⟩

/-! ## C23, C27, C28: what the user operations submit -/

theorem handleUpdate_submitted (selectedUser : Option User) (formData : FormData)
    (id : String) (p : UpdateUserPayload)
    (h : Users.handleUpdate selectedUser formData = .submitted (id, p)) :
    (∃ user, selectedUser = some user ∧ id = user._id) ∧
    p.name = formData.name ∧ p.email = formData.email ∧ p.isActive = formData.isActive ∧
    p.password = orNull formData.password ∧ p.teamId = orNull formData.teamId ∧
    ((formData.roleId = "" ∧ p.roles = none) ∨
      (formData.roleId ≠ "" ∧ ∃ vf vt, dateOrNull formData.roleValidFrom = some vf ∧
        dateOrNull formData.roleValidTill = some vt ∧
        p.roles = some [{ role := formData.roleId, validFrom := vf, validTill := vt }])) := by
  unfold Users.handleUpdate at h
  cases selectedUser with
  | none =>
    simp only at h
    split at h
    · rename_i heq
      cases heq
    · cases h
  | some user =>
    by_cases hr : formData.roleId = ""
    · simp only [hr, if_true, Handled.submitted.injEq, Prod.mk.injEq] at h
      obtain ⟨h1, h2⟩ := h
      subst h2
      exact ⟨⟨user, rfl, h1.symm⟩, rfl, rfl, rfl, rfl, rfl, Or.inl ⟨hr, rfl⟩⟩
    · simp only [hr, if_false] at h
      cases hvf : dateOrNull formData.roleValidFrom with
      | none => simp [hvf] at h
      | some vf =>
        cases hvt : dateOrNull formData.roleValidTill with
        | none => simp [hvf, hvt] at h
        | some vt =>
          simp only [hvf, hvt, Handled.submitted.injEq, Prod.mk.injEq] at h
          obtain ⟨h1, h2⟩ := h
          subst h2
          exact ⟨⟨user, rfl, h1.symm⟩, rfl, rfl, rfl, rfl, rfl,
            Or.inr ⟨hr, vf, vt, rfl, rfl, rfl⟩⟩

theorem handleCreate_submitted (formData : FormData) (p : CreateUserPayload)
    (h : Users.handleCreate formData = .submitted p) :
    (formData.roleId = "" ∧ p.roles = []) ∨
      (formData.roleId ≠ "" ∧ ∃ vf vt, dateOrNull formData.roleValidFrom = some vf ∧
        dateOrNull formData.roleValidTill = some vt ∧
        p.roles = [{ role := formData.roleId, validFrom := vf, validTill := vt }]) := by
  unfold Users.handleCreate at h
  by_cases hr : formData.roleId = ""
  · simp only [hr, if_true, Handled.submitted.injEq] at h
    subst h
    exact Or.inl ⟨hr, rfl⟩
  · simp only [hr, if_false] at h
    cases hvf : dateOrNull formData.roleValidFrom with
    | none => simp [hvf] at h
    | some vf =>
      cases hvt : dateOrNull formData.roleValidTill with
      | none => simp [hvf, hvt] at h
      | some vt =>
        simp only [hvf, hvt, Handled.submitted.injEq] at h
        subst h
        exact Or.inr ⟨hr, vf, vt, rfl, rfl, rfl⟩

theorem orNull_isSome (s : String) : (orNull s).isSome = true ↔ s ≠ "" := by
  unfold orNull
  by_cases h : s = "" <;> simp [h]

/-- C23 (counterexample): no form input makes `handleCreate`, `handleUpdate`
of the users page or `handleSubmit` of the registration page submit a roles
sequence with more than one assignment. -/
theorem no_form_submits_several_roles :
    ¬ ∃ (formData : FormData) (selectedUser : Option User) (registerForm : RegisterForm),
      (∃ p, Users.handleCreate formData = .submitted p ∧ 1 < p.roles.length) ∨
      (∃ id p rs, Users.handleUpdate selectedUser formData = .submitted (id, p) ∧
        p.roles = some rs ∧ 1 < rs.length) ∨
      (∃ p, RegisterUser.handleSubmit registerForm = .submitted p ∧ 1 < p.roles.length) := by
  rintro ⟨formData, selectedUser, registerForm, h | h | h⟩
  · obtain ⟨p, hp, hlen⟩ := h
    rcases handleCreate_submitted formData p hp with ⟨_, hr⟩ | ⟨_, vf, vt, _, _, hr⟩ <;>
      simp [hr] at hlen
  · obtain ⟨id, p, rs, hp, hrs, hlen⟩ := h
    rcases (handleUpdate_submitted selectedUser formData id p hp).2.2.2.2.2.2 with
      ⟨_, hr⟩ | ⟨_, vf, vt, _, _, hr⟩
    · rw [hr] at hrs
      cases hrs
    · rw [hr] at hrs
      cases hrs
      simp at hlen
  · obtain ⟨p, hp, hlen⟩ := h
    simp only [RegisterUser.handleSubmit, Handled.submitted.injEq] at hp
    subst hp
    by_cases hr : registerForm.roleId = "" <;> simp [hr] at hlen

/-- C23 (amended): for every form input, `handleCreate` and the registration
submit at most one assignment, none exactly when no role is selected, and
`handleUpdate` submits either no `roles` property (no role selected) or
exactly one assignment; the assignment is of the selected role. -/
theorem user_operations_submit_at_most_one_role (formData : FormData)
    (selectedUser : Option User) (registerForm : RegisterForm) :
    (∀ p, Users.handleCreate formData = .submitted p →
      p.roles.length ≤ 1 ∧ (p.roles = [] ↔ formData.roleId = "") ∧
      ∀ a ∈ p.roles, a.role = formData.roleId) ∧
    (∀ id p, Users.handleUpdate selectedUser formData = .submitted (id, p) →
      (p.roles = none ↔ formData.roleId = "") ∧
      ∀ rs, p.roles = some rs → rs.length = 1 ∧ ∀ a ∈ rs, a.role = formData.roleId) ∧
    (∃ p, RegisterUser.handleSubmit registerForm = .submitted p ∧
      p.roles.length ≤ 1 ∧ (p.roles = [] ↔ registerForm.roleId = "") ∧
      ∀ a ∈ p.roles, a.role = registerForm.roleId) := by
  refine ⟨?_, ?_, ?_⟩
  · intro p hp
    rcases handleCreate_submitted formData p hp with ⟨h1, hr⟩ | ⟨h1, vf, vt, _, _, hr⟩ <;>
      simp [hr, h1]
  · intro id p hp
    rcases (handleUpdate_submitted selectedUser formData id p hp).2.2.2.2.2.2 with
      ⟨h1, hr⟩ | ⟨h1, vf, vt, _, _, hr⟩
    · simp [hr, h1]
    · refine ⟨by simp [hr, h1], ?_⟩
      intro rs hrs
      rw [hr] at hrs
      cases hrs
      simp
  · refine ⟨_, rfl, ?_⟩
    by_cases hr : registerForm.roleId = "" <;> simp [hr]

/-- C23 (amended) at the form opened for `selfUser`, who holds the one role
`role-admin`, and at a registration with no role selected. -/
theorem user_operations_submit_at_most_one_role_witness :
    Users.handleCreate (openEditModal selfUser) =
      .submitted { name := "Root", email := "admin@example.com", password := "",
                   roles := [{ role := "role-admin" }], teamId := none } ∧
    ([{ role := "role-admin" }] : List RoleAssignmentPayload).length ≤ 1 ∧
    (∀ id p, Users.handleUpdate (some selfUser) (openEditModal selfUser) = .submitted (id, p) →
      (p.roles = none ↔ (openEditModal selfUser).roleId = "") ∧
      ∀ rs, p.roles = some rs →
        rs.length = 1 ∧ ∀ a ∈ rs, a.role = (openEditModal selfUser).roleId) ∧
    Users.handleUpdate (some selfUser) (openEditModal selfUser) =
      .submitted ("u0",
        { name := "Root", email := "admin@example.com", isActive := true, password := none,
          roles := some [{ role := "role-admin" }], teamId := none }) ∧
    RegisterUser.handleSubmit { name := "Dan", email := "dan@example.com", password := "pw" } =
      .submitted { name := "Dan", email := "dan@example.com", password := "pw", roles := [],
                   teamId := none } :=
  ⟨by decide,
   ((user_operations_submit_at_most_one_role (openEditModal selfUser) (some selfUser)
      { name := "Dan", email := "dan@example.com", password := "pw" }).1
      { name := "Root", email := "admin@example.com", password := "",
        roles := [{ role := "role-admin" }], teamId := none } (by decide)).1,
   (user_operations_submit_at_most_one_role (openEditModal selfUser) (some selfUser)
      { name := "Dan", email := "dan@example.com", password := "pw" }).2.1,
   by decide, by decide⟩

/-- C27: the payload that `handleUpdate` submits holds the name, email and
`isActive` of the form, and holds `password`, `roles` and `teamId` each exactly
when the form's password, role id and team id is non-empty, with the form's
value; with no role selected the update is submitted without `roles`. -/
theorem handleUpdate_payload_fields (selectedUser : Option User) (formData : FormData)
    (id : String) (p : UpdateUserPayload)
    (h : Users.handleUpdate selectedUser formData = .submitted (id, p)) :
    p.name = formData.name ∧ p.email = formData.email ∧ p.isActive = formData.isActive ∧
    (p.password.isSome = true ↔ formData.password ≠ "") ∧
    (p.roles.isSome = true ↔ formData.roleId ≠ "") ∧
    (p.teamId.isSome = true ↔ formData.teamId ≠ "") ∧
    (∀ v, p.password = some v → v = formData.password) ∧
    (∀ rs, p.roles = some rs → ∃ vf vt, rs =
      [{ role := formData.roleId, validFrom := vf, validTill := vt }]) ∧
    (∀ v, p.teamId = some v → v = formData.teamId) ∧
    (∀ user, formData.roleId = "" →
      Users.handleUpdate (some user) formData = .submitted (user._id, p)) := by
  obtain ⟨_, h1, h2, h3, h4, h5, h6⟩ := handleUpdate_submitted selectedUser formData id p h
  refine ⟨h1, h2, h3, ?_, ?_, ?_, ?_, ?_, ?_, ?_⟩
  · rw [h4]; exact orNull_isSome _
  · rcases h6 with ⟨hr, hp⟩ | ⟨hr, vf, vt, _, _, hp⟩ <;> simp [hp, hr]
  · rw [h5]; exact orNull_isSome _
  · intro v hv
    rw [h4] at hv
    unfold orNull at hv
    by_cases hp : formData.password = "" <;> simp [hp] at hv
    exact hv.symm
  · intro rs hrs
    rcases h6 with ⟨_, hp⟩ | ⟨_, vf, vt, _, _, hp⟩
    · rw [hp] at hrs; cases hrs
    · rw [hp] at hrs; cases hrs; exact ⟨vf, vt, rfl⟩
  · intro v hv
    rw [h5] at hv
    unfold orNull at hv
    by_cases hp : formData.teamId = "" <;> simp [hp] at hv
    exact hv.symm
  · intro user hr
    rcases h6 with ⟨_, hp⟩ | ⟨hne, _⟩
    · simp only [Users.handleUpdate, hr, if_true, Handled.submitted.injEq, Prod.mk.injEq,
        true_and]
      cases p
      simp only [UpdateUserPayload.mk.injEq] at *
      exact ⟨h1.symm, h2.symm, h3.symm, h4.symm, hp.symm, h5.symm⟩
    · exact absurd hr hne

/-- C27 at a form with blank password, no role and no team. -/
theorem handleUpdate_payload_fields_witness :
    Users.handleUpdate (some selfUser)
        { name := "Root", email := "admin@example.com", password := "", roleId := "",
          teamId := "", isActive := true } =
      .submitted ("u0",
        { name := "Root", email := "admin@example.com", isActive := true, password := none,
          roles := none, teamId := none }) ∧
    ((none : Option String).isSome = true ↔ ("" : String) ≠ "") :=
  ⟨by decide,
   (handleUpdate_payload_fields (some selfUser)
      { name := "Root", email := "admin@example.com", password := "", roleId := "",
        teamId := "", isActive := true } "u0"
      { name := "Root", email := "admin@example.com", isActive := true, password := none,
        roles := none, teamId := none } (by decide)).2.2.2.1⟩

/-- C28 (evaluation at the failing input): the logged-in admin opens the edit
form for themselves; the role's validity-till input is rendered, and after
entering 2030-01-01 `handleUpdate` submits their own assignment with that
`validTill`, which was unset when the form was opened. -/
theorem self_edit_changes_own_role_validity :
    Users.isSelfEdit (some selfUser) (some "u0") = true ∧
    findUserRole selfUser = some unboundedAdmin ∧
    unboundedAdmin.validTill = none ∧
    (openEditModal selfUser).roleValidTill = "" ∧
    Users.editInputRendered true (openEditModal selfUser) (.roleValidTill "2030-01-01") = true ∧
    Users.handleUpdate (some selfUser)
        (Users.editSession selfUser (some "u0") [.roleValidTill "2030-01-01"]) =
      .submitted ("u0",
        { name := "Root", email := "admin@example.com", isActive := true, password := none,
          roles := some [{ role := "role-admin", validFrom := none,
                           validTill := some 1893456000000 }],
          teamId := none }) := by
  decide

/-! ## C24, C29, C30: audit-log filter, relative times, login checks -/

theorem startsWithChars_iff (s t : List Char) :
    startsWithChars s t = true ↔ ∃ post, s = t ++ post := by
  induction t generalizing s with
  | nil => cases s <;> simp [startsWithChars]
  | cons d ds ih =>
    cases s with
    | nil => simp [startsWithChars]
    | cons c cs =>
      simp only [startsWithChars, Bool.and_eq_true, beq_iff_eq, ih, List.cons_append,
        List.cons.injEq]
      constructor
      · rintro ⟨h1, post, h2⟩
        exact ⟨post, h1, h2⟩
      · rintro ⟨post, h1, h2⟩
        exact ⟨h1, post, h2⟩

theorem includesChars_iff (s t : List Char) :
    includesChars s t = true ↔ ∃ pre post, s = pre ++ t ++ post := by
  induction s with
  | nil =>
    simp only [includesChars, List.isEmpty_iff]
    constructor
    · intro h
      exact ⟨[], [], by simp [h]⟩
    · rintro ⟨pre, post, h⟩
      have h2 := congrArg List.length h
      simp only [List.length_nil, List.length_append] at h2
      exact List.length_eq_zero.1 (by omega)
  | cons c cs ih =>
    simp only [includesChars, Bool.or_eq_true, startsWithChars_iff, ih]
    constructor
    · rintro (⟨post, h⟩ | ⟨pre, post, h⟩)
      · exact ⟨[], post, by simpa using h⟩
      · exact ⟨c :: pre, post, by simp [h]⟩
    · rintro ⟨pre, post, h⟩
      cases pre with
      | nil => exact Or.inl ⟨post, by simpa using h⟩
      | cons a pre2 =>
        simp only [List.cons_append, List.cons.injEq] at h
        exact Or.inr ⟨pre2, post, h.2⟩

theorem searchHit_iff (toLowerCase : String → String) (field : Option String)
    (searchTerm : String) :
    AuditLogs.searchHit toLowerCase field searchTerm = true ↔
      ∃ f, field = some f ∧ ContainsIgnoringCase toLowerCase f searchTerm := by
  cases field with
  | none => simp [AuditLogs.searchHit]
  | some f =>
    simp only [AuditLogs.searchHit, includes, includesChars_iff, Option.some.injEq,
      exists_eq_left', ContainsIgnoringCase]

theorem matchesLog_iff (toLowerCase : String → String)
    (searchTerm actionFilter entityFilter : String) (log : AuditLog) :
    AuditLogs.matchesLog toLowerCase searchTerm actionFilter entityFilter log = true ↔
      MatchesFilters toLowerCase searchTerm actionFilter entityFilter log := by
  have hname : AuditLogs.searchHit toLowerCase (log.user.bind (fun u => u.name)) searchTerm
      = true ↔ ∃ u n, log.user = some u ∧ u.name = some n ∧
        ContainsIgnoringCase toLowerCase n searchTerm := by
    rw [searchHit_iff]
    cases log.user with
    | none => simp
    | some u => simp
  have hemail : AuditLogs.searchHit toLowerCase (log.user.bind (fun u => u.email)) searchTerm
      = true ↔ ∃ u e, log.user = some u ∧ u.email = some e ∧
        ContainsIgnoringCase toLowerCase e searchTerm := by
    rw [searchHit_iff]
    cases log.user with
    | none => simp
    | some u => simp
  unfold AuditLogs.matchesLog MatchesFilters
  simp only [Bool.and_eq_true, Bool.or_eq_true, beq_iff_eq, hname, hemail, searchHit_iff,
    or_assoc, and_assoc]

/-- C24: `filteredLogs` is a sublist of `logs`; it holds exactly the logs that
contain the search term, letter case ignored, in the user name, the user
email, the entity or the action and that agree with the action filter and the
entity filter when set, each as often as `logs` does; and, lower-casing
keeping the empty string empty, with an empty search term and no filter a log
is listed exactly when it has one of the four searched fields. -/
theorem filteredLogs_lists_matching_logs (toLowerCase : String → String)
    (logs : List AuditLog) (searchTerm actionFilter entityFilter : String) :
    (AuditLogs.filteredLogs toLowerCase logs searchTerm actionFilter entityFilter).Sublist
      logs ∧
    (∀ log, log ∈ AuditLogs.filteredLogs toLowerCase logs searchTerm actionFilter
        entityFilter ↔
      log ∈ logs ∧ MatchesFilters toLowerCase searchTerm actionFilter entityFilter log) ∧
    (∀ log, MatchesFilters toLowerCase searchTerm actionFilter entityFilter log →
      (AuditLogs.filteredLogs toLowerCase logs searchTerm actionFilter entityFilter).count
        log = logs.count log) ∧
    (toLowerCase "" = "" → ∀ log ∈ logs,
      (((log.user.bind (fun u => u.name)).isSome ∨ (log.user.bind (fun u => u.email)).isSome ∨
        log.entity.isSome ∨ log.action.isSome) ↔
      log ∈ AuditLogs.filteredLogs toLowerCase logs "" "" "")) := by
  refine ⟨List.filter_sublist _, ?_, ?_, ?_⟩
  · intro log
    unfold AuditLogs.filteredLogs
    rw [List.mem_filter, matchesLog_iff]
  · intro log hlog
    unfold AuditLogs.filteredLogs
    exact List.count_filter ((matchesLog_iff _ _ _ _ _).2 hlog)
  · intro hempty log hlog
    unfold AuditLogs.filteredLogs
    rw [List.mem_filter]
    have hhit : ∀ field : Option String,
        AuditLogs.searchHit toLowerCase field "" = field.isSome := by
      intro field
      cases field with
      | none => rfl
      | some f =>
        have : includes (toLowerCase f) (toLowerCase "") = true := by
          rw [hempty]
          unfold includes
          rw [includesChars_iff]
          exact ⟨[], (toLowerCase f).toList, rfl⟩
        simpa [AuditLogs.searchHit] using this
    simp only [AuditLogs.matchesLog, hhit, hlog, true_and]
    simp [or_assoc]

/-- C29: for an elapsed time of `s` whole seconds below a week, `getTimeAgo` of
the audit-logs page and of the dashboard return the same text: `Just now`
below a minute (also for negative `s`), then the whole minutes, hours or days
followed by `m ago`, `h ago` or `d ago`, the number lying in 1..59, 1..23 and
1..6. -/
theorem getTimeAgo_same_text_within_a_week (now dateString : Instant) (s : Int)
    (hs : (now - dateString) / 1000 = s) (hweek : s < 604800) :
    AuditLogs.getTimeAgo now dateString = Dashboard.getTimeAgo now dateString ∧
    (s < 60 → AuditLogs.getTimeAgo now dateString = .text "Just now") ∧
    (60 ≤ s → s < 3600 →
      AuditLogs.getTimeAgo now dateString = .text (toString (s / 60) ++ "m ago") ∧
      1 ≤ s / 60 ∧ s / 60 ≤ 59) ∧
    (3600 ≤ s → s < 86400 →
      AuditLogs.getTimeAgo now dateString = .text (toString (s / 3600) ++ "h ago") ∧
      1 ≤ s / 3600 ∧ s / 3600 ≤ 23) ∧
    (86400 ≤ s → s < 604800 →
      AuditLogs.getTimeAgo now dateString = .text (toString (s / 86400) ++ "d ago") ∧
      1 ≤ s / 86400 ∧ s / 86400 ≤ 6) := by
  unfold AuditLogs.getTimeAgo Dashboard.getTimeAgo
  simp only [hs]
  refine ⟨?_, ?_, ?_, ?_, ?_⟩
  · simp only [hweek, if_true]
  · intro h
    simp only [h, if_true]
  · intro h1 h2
    have h3 : ¬ s < 60 := by omega
    simp only [h3, h2, if_true, if_false, true_and]
    omega
  · intro h1 h2
    have h3 : ¬ s < 60 := by omega
    have h4 : ¬ s < 3600 := by omega
    simp only [h3, h4, h2, if_true, if_false, true_and]
    omega
  · intro h1 h2
    have h3 : ¬ s < 60 := by omega
    have h4 : ¬ s < 3600 := by omega
    have h5 : ¬ s < 86400 := by omega
    simp only [h3, h4, h5, h2, if_true, if_false, true_and]
    omega

theorem plusThen_iff (p : Char → Bool) (k : List Char → Bool) (l : List Char) :
    plusThen p k l = true ↔
      ∃ a b, l = a ++ b ∧ a ≠ [] ∧ (∀ c ∈ a, p c = true) ∧ k b = true := by
  induction l with
  | nil =>
    simp only [plusThen, Bool.false_eq_true, false_iff]
    rintro ⟨a, b, h, ha, _⟩
    cases a with
    | nil => exact ha rfl
    | cons x xs => cases h
  | cons c cs ih =>
    simp only [plusThen, Bool.and_eq_true, Bool.or_eq_true, ih]
    constructor
    · rintro ⟨hc, hk | ⟨a, b, h, _, hall, hk⟩⟩
      · exact ⟨[c], cs, rfl, by simp, by simpa using hc, hk⟩
      · refine ⟨c :: a, b, by simp [h], by simp, ?_, hk⟩
        intro x hx
        rcases List.mem_cons.1 hx with h1 | h1
        · rw [h1]; exact hc
        · exact hall x h1
    · rintro ⟨a, b, h, ha, hall, hk⟩
      cases a with
      | nil => exact absurd rfl ha
      | cons x xs =>
        simp only [List.cons_append, List.cons.injEq] at h
        obtain ⟨hx, hrest⟩ := h
        subst hx
        refine ⟨hall c (List.mem_cons_self _ _), ?_⟩
        cases xs with
        | nil =>
          left
          simpa [hrest] using hk
        | cons y ys =>
          right
          exact ⟨y :: ys, b, hrest, by simp,
            fun z hz => hall z (List.mem_cons_of_mem _ hz), hk⟩

theorem litThen_iff (c : Char) (k : List Char → Bool) (l : List Char) :
    litThen c k l = true ↔ ∃ rest, l = c :: rest ∧ k rest = true := by
  cases l with
  | nil => simp [litThen]
  | cons d ds =>
    simp only [litThen, Bool.and_eq_true, beq_iff_eq, List.cons.injEq]
    constructor
    · rintro ⟨h1, h2⟩
      exact ⟨ds, ⟨h1, rfl⟩, h2⟩
    · rintro ⟨rest, ⟨h1, h2⟩, h3⟩
      exact ⟨h1, h2 ▸ h3⟩

theorem isEmailChar_iff (c : Char) :
    isEmailChar c = true ↔ isJsWhitespace c = false ∧ c ≠ '@' := by
  simp [isEmailChar]

/-- The shape that the email pattern accepts, part by part. -/
theorem emailRegexTest_iff_parts (email : String) :
    emailRegexTest email = true ↔
      ∃ front pre post : List Char, email.toList = front ++ '@' :: (pre ++ '.' :: post) ∧
        front ≠ [] ∧ (∀ c ∈ front, isEmailChar c = true) ∧
        pre ≠ [] ∧ (∀ c ∈ pre, isEmailChar c = true) ∧
        post ≠ [] ∧ (∀ c ∈ post, isEmailChar c = true) := by
  unfold emailRegexTest
  rw [plusThen_iff]
  constructor
  · rintro ⟨front, b, h, hf, hfall, hk⟩
    obtain ⟨rest, hb, hk2⟩ := (litThen_iff _ _ _).1 hk
    obtain ⟨pre, b2, h2, hp, hpall, hk3⟩ := (plusThen_iff _ _ _).1 hk2
    obtain ⟨rest2, hb2, hk4⟩ := (litThen_iff _ _ _).1 hk3
    obtain ⟨post, b3, h3, hpo, hpoall, hk5⟩ := (plusThen_iff _ _ _).1 hk4
    have hb3 : b3 = [] := List.isEmpty_iff.1 hk5
    refine ⟨front, pre, post, ?_, hf, hfall, hp, hpall, hpo, hpoall⟩
    rw [h, hb, h2, hb2, h3, hb3, List.append_nil]
  · rintro ⟨front, pre, post, h, hf, hfall, hp, hpall, hpo, hpoall⟩
    refine ⟨front, '@' :: (pre ++ '.' :: post), h, hf, hfall, ?_⟩
    rw [litThen_iff]
    refine ⟨_, rfl, ?_⟩
    rw [plusThen_iff]
    refine ⟨pre, '.' :: post, rfl, hp, hpall, ?_⟩
    rw [litThen_iff]
    refine ⟨_, rfl, ?_⟩
    rw [plusThen_iff]
    exact ⟨post, [], by simp, hpo, hpoall, rfl⟩

theorem count_at_eq_zero_of_emailChars (l : List Char)
    (h : ∀ c ∈ l, isEmailChar c = true) : l.count '@' = 0 := by
  rw [List.count_eq_zero]
  intro hmem
  have := (isEmailChar_iff _).1 (h _ hmem)
  exact this.2 rfl

theorem emailRegexTest_iff_wellFormed (email : String) :
    emailRegexTest email = true ↔ WellFormedEmail email := by
  rw [emailRegexTest_iff_parts]
  have hat : isJsWhitespace '@' = false := by decide
  have hdot : isJsWhitespace '.' = false := by decide
  constructor
  · rintro ⟨front, pre, post, h, hf, hfall, hp, hpall, hpo, hpoall⟩
    refine ⟨?_, ?_, front, pre ++ '.' :: post, h, hf, pre, post, rfl, hp, hpo⟩
    · intro c hc
      rw [h] at hc
      simp only [List.mem_append, List.mem_cons] at hc
      rcases hc with hc | hc | hc | hc | hc
      · exact ((isEmailChar_iff c).1 (hfall c hc)).1
      · rw [hc]; exact hat
      · exact ((isEmailChar_iff c).1 (hpall c hc)).1
      · rw [hc]; exact hdot
      · exact ((isEmailChar_iff c).1 (hpoall c hc)).1
    · rw [h]
      have hne : (('.' : Char) == '@') = false := by decide
      simp only [List.count_append, List.count_cons, hne, beq_self_eq_true, if_true,
        Bool.false_eq_true, if_false, count_at_eq_zero_of_emailChars front hfall,
        count_at_eq_zero_of_emailChars pre hpall, count_at_eq_zero_of_emailChars post hpoall]
  · rintro ⟨hws, hcount, front, domain, h, hf, pre, post, hd, hp, hpo⟩
    rw [h] at hcount hws
    simp only [List.count_append, List.count_cons_self] at hcount
    have hfc : front.count '@' = 0 := by omega
    have hdc : domain.count '@' = 0 := by omega
    have hfront : ∀ c ∈ front, isEmailChar c = true := by
      intro c hc
      rw [isEmailChar_iff]
      refine ⟨hws c (List.mem_append_left _ hc), ?_⟩
      intro hce
      rw [hce] at hc
      exact (List.count_eq_zero.1 hfc) hc
    have hdomain : ∀ c ∈ domain, isEmailChar c = true := by
      intro c hc
      rw [isEmailChar_iff]
      refine ⟨hws c (List.mem_append_right _ (List.mem_cons_of_mem _ hc)), ?_⟩
      intro hce
      rw [hce] at hc
      exact (List.count_eq_zero.1 hdc) hc
    refine ⟨front, pre, post, by rw [h, hd], hf, hfront, hp, ?_, hpo, ?_⟩
    · intro c hc
      exact hdomain c (by rw [hd]; exact List.mem_append_left _ hc)
    · intro c hc
      exact hdomain c (by rw [hd]; exact List.mem_append_right _ (List.mem_cons_of_mem _ hc))

/-- C30: both login pages make the login request exactly when the password
is non-empty and the email is well formed; an empty email or password gives
`Please fill in all fields`, any other rejected email gives
`Please enter a valid email address`, and a rejected form leaves the page as
it was but for that error and `loading` reset, storage included. -/
theorem loginRequest_sent_iff_valid (formData : LoginForm) :
    ((∃ req, Login.loginRequest formData = .submitted req) ↔
      formData.password ≠ "" ∧ WellFormedEmail formData.email) ∧
    ((∃ req, AdminLogin.loginRequest formData = .submitted req) ↔
      formData.password ≠ "" ∧ WellFormedEmail formData.email) ∧
    (formData.email = "" ∨ formData.password = "" →
      Login.loginRequest formData = .rejected "Please fill in all fields" ∧
      AdminLogin.loginRequest formData = .rejected "Please fill in all fields") ∧
    (formData.email ≠ "" → formData.password ≠ "" → ¬ WellFormedEmail formData.email →
      Login.loginRequest formData = .rejected "Please enter a valid email address" ∧
      AdminLogin.loginRequest formData = .rejected "Please enter a valid email address") ∧
    (∀ (text : String) (st : LoginState) (outcome : LoginOutcome) (now : Nat),
      (Login.loginRequest formData = .rejected text →
        Login.handleSubmit st formData outcome now =
          { st with error := text, loading := false }) ∧
      (AdminLogin.loginRequest formData = .rejected text →
        AdminLogin.handleSubmit st formData outcome now =
          { st with error := text, loading := false })) := by
  have hempty : ¬ WellFormedEmail "" := by
    rintro ⟨_, hcount, _⟩
    simp at hcount
  have hreq : Login.loginRequest formData = AdminLogin.loginRequest formData := rfl
  have hiff : (∃ req, Login.loginRequest formData = .submitted req) ↔
      formData.password ≠ "" ∧ WellFormedEmail formData.email := by
    unfold Login.loginRequest
    by_cases h1 : formData.email = "" ∨ formData.password = ""
    · simp only [h1, if_true]
      constructor
      · rintro ⟨_, h⟩
        cases h
      · rintro ⟨hp, hw⟩
        rcases h1 with h | h
        · rw [h] at hw
          exact absurd hw hempty
        · exact absurd h hp
    · simp only [h1, if_false]
      have hp : formData.password ≠ "" := fun h => h1 (Or.inr h)
      by_cases h2 : emailRegexTest formData.email = false
      · simp only [h2, if_true]
        constructor
        · rintro ⟨_, h⟩
          cases h
        · rintro ⟨_, hw⟩
          rw [← emailRegexTest_iff_wellFormed, h2] at hw
          exact Bool.noConfusion hw
      · simp only [h2, if_false]
        have h3 : emailRegexTest formData.email = true := by simpa using h2
        exact ⟨fun _ => ⟨hp, (emailRegexTest_iff_wellFormed _).1 h3⟩, fun _ => ⟨_, rfl⟩⟩
  refine ⟨hiff, hreq ▸ hiff, ?_, ?_, ?_⟩
  · intro h
    simp [Login.loginRequest, AdminLogin.loginRequest, h]
  · intro he hp hw
    have h2 : emailRegexTest formData.email = false := by
      cases h : emailRegexTest formData.email with
      | false => rfl
      | true => exact absurd ((emailRegexTest_iff_wellFormed _).1 h) hw
    simp [Login.loginRequest, AdminLogin.loginRequest, he, hp, h2]
  · intro text st outcome now
    unfold Login.loginRequest AdminLogin.loginRequest Login.handleSubmit AdminLogin.handleSubmit
    by_cases h1 : formData.email = "" ∨ formData.password = ""
    · simp only [h1, if_true, Handled.rejected.injEq]
      constructor <;> (intro h; rw [h])
    · simp only [h1, if_false]
      by_cases h2 : emailRegexTest formData.email = false
      · simp only [h2, if_true, Handled.rejected.injEq]
        constructor <;> (intro h; rw [h])
      · simp only [h2, if_false]
        constructor <;> (intro h; cases h)

/-- C24 on two logs of the documented shape, with ASCII lower-casing. -/
theorem filteredLogs_lists_matching_logs_witness :
    asciiLower "" = "" ∧
    AuditLogs.filteredLogs asciiLower [createLog, loginLog] "ANN" "" "" = [createLog] ∧
    AuditLogs.filteredLogs asciiLower [createLog, loginLog] "example" "LOGIN" "" =
      [loginLog] ∧
    AuditLogs.filteredLogs asciiLower [createLog, loginLog] "" "" "" =
      [createLog, loginLog] ∧
    (∀ log, log ∈ AuditLogs.filteredLogs asciiLower [createLog, loginLog] "ANN" "" "" ↔
      log ∈ [createLog, loginLog] ∧ MatchesFilters asciiLower "ANN" "" "" log) :=
  ⟨by decide, by decide, by decide, by decide,
   (filteredLogs_lists_matching_logs asciiLower [createLog, loginLog] "ANN" "" "").2.1⟩

/-- C29 at 125 seconds after the timestamp, and at 125 seconds before it. -/
theorem getTimeAgo_same_text_within_a_week_witness :
    AuditLogs.getTimeAgo 1700000125000 1700000000000 =
      Dashboard.getTimeAgo 1700000125000 1700000000000 ∧
    AuditLogs.getTimeAgo 1700000125000 1700000000000 = .text "2m ago" ∧
    AuditLogs.getTimeAgo 1700000000000 1700000125000 = .text "Just now" :=
  ⟨(getTimeAgo_same_text_within_a_week 1700000125000 1700000000000 125 (by decide)
      (by decide)).1,
   by decide, by decide⟩

/-- C30 at the form `adminForm`, at an email without a dot after the `@`, and
at an empty password. -/
theorem loginRequest_sent_iff_valid_witness :
    Login.loginRequest adminForm = .submitted ("admin@example.com", "admin123") ∧
    Login.loginRequest { email := "admin@example", password := "admin123" } =
      .rejected "Please enter a valid email address" ∧
    Login.loginRequest { email := "admin@example.com", password := "" } =
      .rejected "Please fill in all fields" ∧
    (adminForm.password ≠ "" ∧ WellFormedEmail adminForm.email) :=
  ⟨by decide, by decide, by decide,
   (loginRequest_sent_iff_valid adminForm).1.1
     ⟨("admin@example.com", "admin123"), by decide⟩⟩

/-! ## C26: stored dates and the date input -/

/-- The year of an era is recovered from the day of the era. -/
theorem yearOfEra_recovered (yoe doy : Int) (h0 : 0 ≤ yoe) (h1 : yoe ≤ 399) (h2 : 0 ≤ doy)
    (h3 : doy ≤ 364 ∨ (doy = 365 ∧ (yoe + 1) % 4 = 0 ∧ ((yoe + 1) % 100 ≠ 0 ∨ yoe = 399))) :
    ((yoe * 365 + yoe / 4 - yoe / 100 + doy) - (yoe * 365 + yoe / 4 - yoe / 100 + doy) / 1460 +
      (yoe * 365 + yoe / 4 - yoe / 100 + doy) / 36524 -
      (yoe * 365 + yoe / 4 - yoe / 100 + doy) / 146096) / 365 = yoe := by
  by_cases hX : yoe = 399 ∧ doy = 365
  · obtain ⟨hy, hd⟩ := hX
    subst hy hd
    decide
  · have hdoy : doy ≤ 364 ∨ (doy = 365 ∧ (yoe + 1) % 4 = 0 ∧ (yoe + 1) % 100 ≠ 0) := by
      omega
    generalize hdoe : yoe * 365 + yoe / 4 - yoe / 100 + doy = doe
    have hc : yoe / 100 = 0 ∨ yoe / 100 = 1 ∨ yoe / 100 = 2 ∨ yoe / 100 = 3 := by omega
    have hb : yoe % 4 = 0 ∨ yoe % 4 = 1 ∨ yoe % 4 = 2 ∨ yoe % 4 = 3 := by omega
    have F1 : doe / 146096 = 0 := by
      apply Int.ediv_eq_zero_of_lt <;> omega
    have F2 : doe / 36524 = yoe / 100 := by
      rcases hdoy with hd | ⟨hd, h4, h100⟩
      · rcases hc with hc | hc | hc | hc <;> omega
      · have hb3 : yoe % 4 = 3 := by omega
        have hr : yoe % 100 ≠ 99 := by omega
        rcases hc with hc | hc | hc | hc <;> omega
    rw [F1, F2]
    rcases hdoy with hd | ⟨hd, h4, h100⟩
    · rcases hc with hc | hc | hc | hc <;> rcases hb with hb | hb | hb | hb <;> omega
    · have hb3 : yoe % 4 = 3 := by omega
      have hr : yoe % 100 ≠ 99 := by omega
      rcases hc with hc | hc | hc | hc <;> omega

/-- The civil date of a day number, read off the parts of the day number. -/
theorem civilFromDays_of_parts (z era doe yoe doy mp d : Int)
    (hz : z + 719468 = era * 146097 + doe) (hdoe0 : 0 ≤ doe) (hdoe1 : doe < 146097)
    (hyoe : (doe - doe / 1460 + doe / 36524 - doe / 146096) / 365 = yoe)
    (hdoy : doe - (365 * yoe + yoe / 4 - yoe / 100) = doy)
    (hmp : (5 * doy + 2) / 153 = mp)
    (hd : doy - (153 * mp + 2) / 5 + 1 = d) :
    civilFromDays z =
      (yoe + era * 400 + (if (if mp < 10 then mp + 3 else mp - 9) ≤ 2 then 1 else 0),
       (if mp < 10 then mp + 3 else mp - 9).toNat, d.toNat) := by
  have e1 : (z + 719468) / 146097 = era := by omega
  have e2 : z + 719468 - era * 146097 = doe := by omega
  unfold civilFromDays
  simp only []
  rw [e1, e2, hyoe, hdoy, hmp, hd]

/-- The month and the day of the month are recovered from the day of the
year that starts in March. -/
theorem monthDay_recovered (mp d : Int) (h0 : 0 ≤ mp) (h1 : mp ≤ 11) (hd1 : 1 ≤ d)
    (hd2 : d ≤ 31) (h30 : (mp = 1 ∨ mp = 3 ∨ mp = 6 ∨ mp = 8) → d ≤ 30)
    (h29 : mp = 11 → d ≤ 29) :
    (5 * ((153 * mp + 2) / 5 + d - 1) + 2) / 153 = mp ∧
    ((153 * mp + 2) / 5 + d - 1) - (153 * mp + 2) / 5 + 1 = d := by
  refine ⟨?_, by omega⟩
  have hc : mp = 0 ∨ mp = 1 ∨ mp = 2 ∨ mp = 3 ∨ mp = 4 ∨ mp = 5 ∨ mp = 6 ∨ mp = 7 ∨ mp = 8 ∨
      mp = 9 ∨ mp = 10 ∨ mp = 11 := by omega
  rcases hc with h | h | h | h | h | h | h | h | h | h | h | h <;> subst h <;> omega

/-- Day numbers and civil dates: `civilFromDays` undoes `daysFromCivil` on
every date of the calendar. -/
theorem civilFromDays_daysFromCivil (y m d : Nat) (hd1 : 1 ≤ d) (hd2 : d ≤ daysInMonth y m) :
    civilFromDays (daysFromCivil y m d) = ((y : Int), m, d) := by
  have hm : 1 ≤ m ∧ m ≤ 12 := by
    unfold daysInMonth at hd2
    split at hd2 <;> omega
  obtain ⟨hm1, hm2⟩ := hm
  have hd31 : d ≤ 31 := by
    unfold daysInMonth at hd2
    split at hd2 <;> first | omega | (split at hd2 <;> omega)
  have h30 : m = 4 ∨ m = 6 ∨ m = 9 ∨ m = 11 → d ≤ 30 := by
    intro h
    unfold daysInMonth at hd2
    rcases h with h | h | h | h <;> subst h <;> simpa using hd2
  have h29 : m = 2 → d ≤ 29 := by
    intro h
    subst h
    unfold daysInMonth at hd2
    simp only at hd2
    split at hd2 <;> omega
  have hleap : m = 2 → d = 29 → (y % 4 = 0 ∧ y % 100 ≠ 0) ∨ y % 400 = 0 := by
    intro h hd
    subst h
    unfold daysInMonth at hd2
    simp only at hd2
    by_cases hl : isLeapYear y = true
    · simpa [isLeapYear] using hl
    · have hl2 : isLeapYear y = false := by simpa using hl
      rw [hl2] at hd2
      simp only [Bool.false_eq_true, if_false] at hd2
      omega
  by_cases hle : m ≤ 2
  · -- January and February belong to the year that started the March before
    have hy : ∃ era yoe : Int, (y : Int) - 1 = era * 400 + yoe ∧ 0 ≤ yoe ∧ yoe ≤ 399 :=
      ⟨((y : Int) - 1) / 400, ((y : Int) - 1) % 400, by omega, by omega, by omega⟩
    obtain ⟨era, yoe, hy, hy0, hy1⟩ := hy
    have hera : ((y : Int) - 1) / 400 = era := by omega
    have hyoe : (y : Int) - 1 - era * 400 = yoe := by omega
    have hz : daysFromCivil y m d + 719468 = era * 146097 +
        (yoe * 365 + yoe / 4 - yoe / 100 + ((153 * ((m : Int) + 9) + 2) / 5 + (d : Int) - 1)) := by
      unfold daysFromCivil
      simp only [hle, if_true, hera, hyoe]
      omega
    have hdoe0 : 0 ≤ (yoe * 365 + yoe / 4 - yoe / 100 + ((153 * ((m : Int) + 9) + 2) / 5 + (d : Int) - 1)) := by
      omega
    have hdoe1 : (yoe * 365 + yoe / 4 - yoe / 100 + ((153 * ((m : Int) + 9) + 2) / 5 + (d : Int) - 1)) < 146097 := by
      omega
    have hdoy : (yoe * 365 + yoe / 4 - yoe / 100 + ((153 * ((m : Int) + 9) + 2) / 5 + (d : Int) - 1)) - (365 * yoe + yoe / 4 - yoe / 100) =
        (153 * ((m : Int) + 9) + 2) / 5 + (d : Int) - 1 := by
      omega
    have hmd := monthDay_recovered ((m : Int) + 9) d (by omega) (by omega) (by omega)
      (by omega) (by omega) (by omega)
    have hA := yearOfEra_recovered yoe ((153 * ((m : Int) + 9) + 2) / 5 + (d : Int) - 1) hy0 hy1
      (by omega) (by
        by_cases h : m = 2 ∧ d = 29
        · right
          have hl := hleap h.1 h.2
          omega
        · left
          omega)
    have hparts := civilFromDays_of_parts (daysFromCivil y m d) era
      (yoe * 365 + yoe / 4 - yoe / 100 + ((153 * ((m : Int) + 9) + 2) / 5 + (d : Int) - 1))
      yoe ((153 * ((m : Int) + 9) + 2) / 5 + (d : Int) - 1) ((m : Int) + 9) d
      hz
      hdoe0 hdoe1 hA hdoy hmd.1 hmd.2
    rw [hparts]
    have h10 : ¬ ((m : Int) + 9 < 10) := by omega
    simp only [h10, if_false]
    have h2 : (m : Int) + 9 - 9 ≤ 2 := by omega
    simp only [h2, if_true, Prod.mk.injEq]
    refine ⟨by omega, by omega, by omega⟩
  · have hy : ∃ era yoe : Int, (y : Int) = era * 400 + yoe ∧ 0 ≤ yoe ∧ yoe ≤ 399 :=
      ⟨(y : Int) / 400, (y : Int) % 400, by omega, by omega, by omega⟩
    obtain ⟨era, yoe, hy, hy0, hy1⟩ := hy
    have hera : (y : Int) / 400 = era := by omega
    have hyoe : (y : Int) - era * 400 = yoe := by omega
    have hz : daysFromCivil y m d + 719468 = era * 146097 +
        (yoe * 365 + yoe / 4 - yoe / 100 + ((153 * ((m : Int) - 3) + 2) / 5 + (d : Int) - 1)) := by
      unfold daysFromCivil
      simp only [hle, if_false, hera, hyoe]
      omega
    have hdoe0 : 0 ≤ (yoe * 365 + yoe / 4 - yoe / 100 + ((153 * ((m : Int) - 3) + 2) / 5 + (d : Int) - 1)) := by
      omega
    have hdoe1 : (yoe * 365 + yoe / 4 - yoe / 100 + ((153 * ((m : Int) - 3) + 2) / 5 + (d : Int) - 1)) < 146097 := by
      omega
    have hdoy : (yoe * 365 + yoe / 4 - yoe / 100 + ((153 * ((m : Int) - 3) + 2) / 5 + (d : Int) - 1)) - (365 * yoe + yoe / 4 - yoe / 100) =
        (153 * ((m : Int) - 3) + 2) / 5 + (d : Int) - 1 := by
      omega
    have hmd := monthDay_recovered ((m : Int) - 3) d (by omega) (by omega) (by omega)
      (by omega) (by omega) (by omega)
    have hA := yearOfEra_recovered yoe ((153 * ((m : Int) - 3) + 2) / 5 + (d : Int) - 1) hy0 hy1
      (by omega) (by left; omega)
    have hparts := civilFromDays_of_parts (daysFromCivil y m d) era
      (yoe * 365 + yoe / 4 - yoe / 100 + ((153 * ((m : Int) - 3) + 2) / 5 + (d : Int) - 1))
      yoe ((153 * ((m : Int) - 3) + 2) / 5 + (d : Int) - 1) ((m : Int) - 3) d
      hz
      hdoe0 hdoe1 hA hdoy hmd.1 hmd.2
    rw [hparts]
    have h10 : (m : Int) - 3 < 10 := by omega
    simp only [h10, if_true]
    have h2 : ¬ ((m : Int) - 3 + 3 ≤ 2) := by omega
    simp only [h2, if_false, Prod.mk.injEq]
    refine ⟨by omega, by omega, by omega⟩

theorem toDigitsCore_step (fuel n : Nat) (ds : List Char) :
    Nat.toDigitsCore 10 (fuel + 1) n ds =
      if n / 10 = 0 then Nat.digitChar (n % 10) :: ds
      else Nat.toDigitsCore 10 fuel (n / 10) (Nat.digitChar (n % 10) :: ds) := rfl

/-- The decimal digits of a number below 10000, by its size. -/
theorem toDigits_lt_10000 (n : Nat) (h : n < 10000) :
    Nat.toDigits 10 n =
      if n < 10 then [Nat.digitChar n]
      else if n < 100 then [Nat.digitChar (n / 10), Nat.digitChar (n % 10)]
      else if n < 1000 then
        [Nat.digitChar (n / 100), Nat.digitChar (n / 10 % 10), Nat.digitChar (n % 10)]
      else [Nat.digitChar (n / 1000), Nat.digitChar (n / 100 % 10),
        Nat.digitChar (n / 10 % 10), Nat.digitChar (n % 10)] := by
  unfold Nat.toDigits
  by_cases h1 : n < 10
  · have e1 : n / 10 = 0 := by omega
    have e2 : n % 10 = n := by omega
    rw [toDigitsCore_step, if_pos e1, if_pos h1, e2]
  · obtain ⟨f, hf⟩ : ∃ f, n + 1 = f + 1 + 1 + 1 + 1 := ⟨n - 3, by omega⟩
    have e1 : ¬ (n / 10 = 0) := by omega
    rw [hf, toDigitsCore_step, if_neg e1, if_neg h1, toDigitsCore_step]
    by_cases h2 : n < 100
    · have e2 : n / 10 / 10 = 0 := by omega
      have e3 : n / 10 % 10 = n / 10 := by omega
      rw [if_pos e2, if_pos h2, e3]
    · have e2 : ¬ (n / 10 / 10 = 0) := by omega
      rw [if_neg e2, if_neg h2, toDigitsCore_step]
      by_cases h3 : n < 1000
      · have e3 : n / 10 / 10 / 10 = 0 := by omega
        have e4 : n / 10 / 10 % 10 = n / 100 := by omega
        rw [if_pos e3, if_pos h3, e4]
      · have e3 : ¬ (n / 10 / 10 / 10 = 0) := by omega
        have e4 : n / 10 / 10 / 10 / 10 = 0 := by omega
        have e5 : n / 10 / 10 / 10 % 10 = n / 1000 := by omega
        have e6 : n / 10 / 10 % 10 = n / 100 % 10 := by omega
        rw [if_neg e3, if_neg h3, toDigitsCore_step, if_pos e4, e5, e6]

/-- Two digits, zero-padded. -/
theorem padDigits_two (n : Nat) (h : n < 100) :
    padDigits 2 n = String.mk [Nat.digitChar (n / 10), Nat.digitChar (n % 10)] := by
  unfold padDigits Nat.repr
  rw [toDigits_lt_10000 n (by omega)]
  have h2 : ¬ (100 ≤ n) := by omega
  by_cases h1 : n < 10
  · have e1 : n / 10 = 0 := by omega
    have e2 : n % 10 = n := by omega
    rw [if_pos h1, e1, e2]
    rfl
  · have h3 : n < 100 := h
    rw [if_neg h1, if_pos h3]
    rfl

/-- Four digits, zero-padded. -/
theorem padDigits_four (n : Nat) (h : n < 10000) :
    padDigits 4 n = String.mk [Nat.digitChar (n / 1000), Nat.digitChar (n / 100 % 10),
      Nat.digitChar (n / 10 % 10), Nat.digitChar (n % 10)] := by
  unfold padDigits Nat.repr
  rw [toDigits_lt_10000 n h]
  by_cases h1 : n < 10
  · have e1 : n / 1000 = 0 := by omega
    have e2 : n / 100 % 10 = 0 := by omega
    have e3 : n / 10 % 10 = 0 := by omega
    have e4 : n % 10 = n := by omega
    rw [if_pos h1, e1, e2, e3, e4]
    rfl
  · rw [if_neg h1]
    by_cases h2 : n < 100
    · have e1 : n / 1000 = 0 := by omega
      have e2 : n / 100 % 10 = 0 := by omega
      have e3 : n / 10 % 10 = n / 10 := by omega
      rw [if_pos h2, e1, e2, e3]
      rfl
    · rw [if_neg h2]
      by_cases h3 : n < 1000
      · have e1 : n / 1000 = 0 := by omega
        have e2 : n / 100 % 10 = n / 100 := by omega
        rw [if_pos h3, e1, e2]
        rfl
      · rw [if_neg h3]
        rfl

/-- A digit character is the character of its value. -/
theorem digitValue_some (c : Char) (a : Nat) (h : digitValue c = some a) :
    a < 10 ∧ Nat.digitChar a = c := by
  unfold digitValue at h
  split at h
  · rename_i hd
    cases h
    simp only [Char.isDigit, Bool.and_eq_true, decide_eq_true_eq] at hd
    have h1 : 48 ≤ c.toNat := hd.1
    have h2 : c.toNat ≤ 57 := hd.2
    have hc : Char.ofNat c.toNat = c := Char.ofNat_toNat c
    generalize c.toNat = n at h1 h2 hc
    subst hc
    interval_cases n <;> exact ⟨by decide, by decide⟩
  · cases h

/-- The parts of a date that `new Date` accepts. -/
theorem newDate_some (v : String) (t : Instant) (h : newDate v = some t) :
    ∃ (y1 y2 y3 y4 m1 m2 d1 d2 : Char) (a b c e f g p q : Nat),
      v = String.mk [y1, y2, y3, y4, '-', m1, m2, '-', d1, d2] ∧
      digitValue y1 = some a ∧ digitValue y2 = some b ∧ digitValue y3 = some c ∧
      digitValue y4 = some e ∧ digitValue m1 = some f ∧ digitValue m2 = some g ∧
      digitValue d1 = some p ∧ digitValue d2 = some q ∧
      1 ≤ p * 10 + q ∧ p * 10 + q ≤ daysInMonth (a * 1000 + b * 100 + c * 10 + e) (f * 10 + g) ∧
      t = daysFromCivil (a * 1000 + b * 100 + c * 10 + e) (f * 10 + g) (p * 10 + q) *
        86400000 := by
  unfold newDate at h
  split at h
  · rename_i y1 y2 y3 y4 m1 m2 d1 d2 heq
    simp only [Option.bind_eq_bind, Option.bind_eq_some] at h
    obtain ⟨a, ha, b, hb, c, hc, e, he, f, hf, g, hg, p, hp, q, hq, h⟩ := h
    split at h
    · rename_i hvalid
      cases h
      refine ⟨y1, y2, y3, y4, m1, m2, d1, d2, a, b, c, e, f, g, p, q, ?_, ha, hb, hc, he, hf,
        hg, hp, hq, hvalid.1, hvalid.2, rfl⟩
      rw [← heq]
      rfl
    · cases h
  · cases h

/-- The digits written by `formatDateForInput` are the digits read by
`new Date`: the civil date of the instant. -/
theorem formatDateForInput_newDate (v : String) (t : Instant) (h : newDate v = some t) :
    formatDateForInput (some t) = v := by
  obtain ⟨y1, y2, y3, y4, m1, m2, d1, d2, a, b, c, e, f, g, p, q, hv, ha, hb, hc, he, hf, hg,
    hp, hq, hd1, hd2, ht⟩ := newDate_some v t h
  obtain ⟨ha1, ha2⟩ := digitValue_some _ _ ha
  obtain ⟨hb1, hb2⟩ := digitValue_some _ _ hb
  obtain ⟨hc1, hc2⟩ := digitValue_some _ _ hc
  obtain ⟨he1, he2⟩ := digitValue_some _ _ he
  obtain ⟨hf1, hf2⟩ := digitValue_some _ _ hf
  obtain ⟨hg1, hg2⟩ := digitValue_some _ _ hg
  obtain ⟨hp1, hp2⟩ := digitValue_some _ _ hp
  obtain ⟨hq1, hq2⟩ := digitValue_some _ _ hq
  have hdiv : t / 86400000 =
      daysFromCivil (a * 1000 + b * 100 + c * 10 + e) (f * 10 + g) (p * 10 + q) := by
    rw [ht]
    exact Int.mul_ediv_cancel _ (by decide)
  have hcivil := civilFromDays_daysFromCivil _ _ _ hd1 hd2
  have hyear : isoYear ((a * 1000 + b * 100 + c * 10 + e : Nat) : Int) =
      String.mk [y1, y2, y3, y4] := by
    unfold isoYear
    have hr : (0 : Int) ≤ ((a * 1000 + b * 100 + c * 10 + e : Nat) : Int) ∧
        ((a * 1000 + b * 100 + c * 10 + e : Nat) : Int) ≤ 9999 := by omega
    rw [if_pos hr, Int.toNat_ofNat, padDigits_four _ (by omega)]
    have e1 : (a * 1000 + b * 100 + c * 10 + e) / 1000 = a := by omega
    have e2 : (a * 1000 + b * 100 + c * 10 + e) / 100 % 10 = b := by omega
    have e3 : (a * 1000 + b * 100 + c * 10 + e) / 10 % 10 = c := by omega
    have e4 : (a * 1000 + b * 100 + c * 10 + e) % 10 = e := by omega
    rw [e1, e2, e3, e4, ha2, hb2, hc2, he2]
  have hmonth : padDigits 2 (f * 10 + g) = String.mk [m1, m2] := by
    rw [padDigits_two _ (by omega)]
    have e1 : (f * 10 + g) / 10 = f := by omega
    have e2 : (f * 10 + g) % 10 = g := by omega
    rw [e1, e2, hf2, hg2]
  have hday : padDigits 2 (p * 10 + q) = String.mk [d1, d2] := by
    rw [padDigits_two _ (by omega)]
    have e1 : (p * 10 + q) / 10 = p := by omega
    have e2 : (p * 10 + q) % 10 = q := by omega
    rw [e1, e2, hp2, hq2]
  unfold formatDateForInput
  simp only [hdiv, hcivil, hyear, hmonth, hday, hv]
  rfl

/-- Every calendar date of the date input is read by `new Date`. -/
theorem newDate_of_isCalendarDate (v : String) (hv : IsCalendarDate v) :
    ∃ t, newDate v = some t := by
  obtain ⟨y1, y2, y3, y4, m1, m2, d1, d2, a, b, c, e, f, g, p, q, hlist, ha, hb, hc, he, hf,
    hg, hp, hq, _, _, hd1, hd2⟩ := hv
  unfold newDate
  rw [hlist]
  simp only [ha, hb, hc, he, hf, hg, hp, hq, Option.bind_eq_bind, Option.some_bind]
  rw [if_pos ⟨hd1, hd2⟩]
  exact ⟨_, rfl⟩

/-- C26: for every calendar date `v` in the form `YYYY-MM-DD`, `new Date(v)`
is a valid instant `t`, `handlePermissionDateChange` stores `t` in the given
field of the entries of the key, and `formatDateForInput` applied to `t`
returns `v`; for the empty input the stored value is `null`, and
`formatDateForInput(null)` is the empty string. -/
theorem formatDateForInput_returns_stored_date :
    (∀ v : String, IsCalendarDate v →
      ∃ t : Instant, newDate v = some t ∧ dateOrNull v = some (some t) ∧
        formatDateForInput (some t) = v ∧
        ∀ (role : Role) (ps : List Permission) (permKey : String) (field : DateField),
          role.permissions = some ps →
          handlePermissionDateChange (some role) permKey field v =
            .submitted (role._id,
              ps.map (fun p => if p.key = permKey then setDateField p field (some t) else p))) ∧
    dateOrNull "" = some none ∧
    formatDateForInput none = "" ∧
    (∀ (role : Role) (ps : List Permission) (permKey : String) (field : DateField),
      role.permissions = some ps →
      handlePermissionDateChange (some role) permKey field "" =
        .submitted (role._id,
          ps.map (fun p => if p.key = permKey then setDateField p field none else p))) := by
  refine ⟨?_, rfl, rfl, ?_⟩
  · intro v hv
    obtain ⟨t, ht⟩ := newDate_of_isCalendarDate v hv
    have hne : v ≠ "" := by
      intro h
      rw [h] at ht
      cases ht
    have hdate : dateOrNull v = some (some t) := by
      unfold dateOrNull
      rw [if_neg hne, ht]
    refine ⟨t, ht, hdate, formatDateForInput_newDate v t ht, ?_⟩
    intro role ps permKey field hps
    simp only [handlePermissionDateChange, hps]
    rw [mapThrowing_date_some ps permKey field v (some t) hdate]
  · intro role ps permKey field hps
    simp only [handlePermissionDateChange, hps]
    rw [mapThrowing_date_some ps permKey field "" none rfl]

/-- C26 (witness): the leap day `2024-02-29` is a calendar date; it is stored
as the instant 1709164800000, which `formatDateForInput` writes as
`2024-02-29` again. -/
theorem formatDateForInput_returns_stored_date_witness :
    IsCalendarDate "2024-02-29" ∧
    (∃ t : Instant, newDate "2024-02-29" = some t ∧
      dateOrNull "2024-02-29" = some (some t) ∧
      formatDateForInput (some t) = "2024-02-29" ∧
      ∀ (role : Role) (ps : List Permission) (permKey : String) (field : DateField),
        role.permissions = some ps →
        handlePermissionDateChange (some role) permKey field "2024-02-29" =
          .submitted (role._id,
            ps.map (fun p => if p.key = permKey then setDateField p field (some t) else p))) ∧
    newDate "2024-02-29" = some 1709164800000 ∧
    formatDateForInput (some 1709164800000) = "2024-02-29" ∧
    handlePermissionDateChange (some roleWithReadTill2024) "user.read" .validTill "2024-02-29" =
      .submitted ("r4", [{ readTill2024 with validTill := some 1709164800000 }]) :=
  ⟨⟨'2', '0', '2', '4', '0', '2', '2', '9', 2, 0, 2, 4, 0, 2, 2, 9, by decide⟩,
   formatDateForInput_returns_stored_date.1 "2024-02-29"
     ⟨'2', '0', '2', '4', '0', '2', '2', '9', 2, 0, 2, 4, 0, 2, 2, 9, by decide⟩,
   by decide, by decide, by decide⟩

end TeamManagement
